import Mathlib

/-!
Verification of the sstop collection/aggregation pipeline.

This file gives a shallow embedding of the Go sources of the repository
(`internal/model`, `internal/geo`, `internal/platform` cgroup parsing, and
`internal/collector/collector.go`) and proves properties of the snapshot
assembler, the geolocation lookup, the cgroup parser and the state printer.

Modelling conventions, used throughout:
* Go `uint64` byte counters are `Nat`; the only subtraction is `safeDelta`,
  which clamps and therefore never underflows.  Additions into the session
  cumulative counters are reduced `% 2^64` exactly as Go `uint64` addition.
* Go `float64` rates are modelled as exact rationals `ℚ`; `time.Time` is a
  rational number of seconds, with the unset ("zero") time of the collector
  represented by `Option ℚ = none`.
* Go strings are modelled as `List Char` (`Str`); for the ASCII data handled
  by the cgroup parser this is byte-for-byte the Go behaviour.
* Go maps are association lists updated in place (insertion order); the
  claims proved below never depend on Go's randomized map iteration order,
  except where explicitly discussed (the unstable sort of remote hosts,
  treated relationally via `sortSliceSpec`).
-/

namespace SSTop

/-! ## Strings as character lists (`internal/platform` cgroup parsing) -/

/-- Go strings, modelled as lists of characters. -/
abbrev Str := List Char

/-- `strings.HasPrefix`. -/
def startsWith (s p : Str) : Bool :=
  match p, s with
  | [], _ => true
  | _ :: _, [] => false
  | pc :: pr, sc :: sr => pc == sc && startsWith sr pr

/-- `strings.HasSuffix`. -/
def endsWith (s p : Str) : Bool :=
  startsWith s.reverse p.reverse

/-- If `p` starts `s`, return the remainder of `s` (used by the splitter). -/
def stripLead (s p : Str) : Option Str :=
  match p, s with
  | [], s => some s
  | _ :: _, [] => none
  | pc :: pr, sc :: sr => if pc = sc then stripLead sr pr else none

/-- `strings.Split` on a single-character separator (used for "/", ".", ":"
and line splitting, as in the Go sources). -/
def splitOnCh (c : Char) : Str → List Str
  | [] => [[]]
  | a :: rest =>
    match splitOnCh c rest with
    | [] => [[a]]
    | h :: t => if a = c then [] :: h :: t else (a :: h) :: t

/-- `strings.Split` on a general separator, fuelled by the string length
(the separator is nonempty at every use site). -/
def splitOnStrAux (sep : Str) : Nat → Str → Str → List Str
  | 0, acc, s => [acc.reverse ++ s]
  | _ + 1, acc, [] => [acc.reverse]
  | fuel + 1, acc, a :: rest =>
    match stripLead (a :: rest) sep with
    | some rem => acc.reverse :: splitOnStrAux sep fuel [] rem
    | none => splitOnStrAux sep fuel (a :: acc) rest

/-- `strings.Split s sep` for a nonempty separator. -/
def splitOnStr (s sep : Str) : List Str :=
  if sep = [] then [s] else splitOnStrAux sep (s.length + 1) [] s

/-- ASCII whitespace, as trimmed by `strings.TrimSpace` on the cgroup data. -/
def isSpaceCh (c : Char) : Bool :=
  c == ' ' || c == '\t' || c == '\n' || c == '\r' || c == '\x0b' || c == '\x0c'

/-- `strings.TrimSpace`. -/
def trimSpace (s : Str) : Str :=
  ((s.dropWhile (isSpaceCh ·)).reverse.dropWhile (isSpaceCh ·)).reverse

/-- `strings.Join` / `strings.Index`-style reassembly: interleave `sep`. -/
def joinWith (sep : Str) : List Str → Str
  | [] => []
  | [s] => s
  | s :: rest => s ++ sep ++ joinWith sep rest

/-- The string literals scanned for by the cgroup parser, named once so
that proofs can refer to them without re-normalizing the literals. -/
def svcSuffix : Str := ".service".toList

def dockerLead : Str := "docker-".toList

def libpodLead : Str := "libpod-".toList

def scopeSuffix : Str := ".scope".toList

def dockerDir : Str := "/docker/".toList

/-! ## `internal/model/types.go` -/

/-- `model.Protocol` (`ProtoTCP = 0`, `ProtoUDP = 1`). -/
inductive Protocol where
  | tcp
  | udp
deriving DecidableEq, Repr

/-- The numeric value of the Go `Protocol` tag (`uint8`), used by the
listen-port comparator `listenPorts[i].Proto < listenPorts[j].Proto`. -/
def Protocol.tag : Protocol → Nat
  | .tcp => 0
  | .udp => 1

/-- `Protocol.String`. -/
def Protocol.toStr : Protocol → String
  | .tcp => "TCP"
  | .udp => "UDP"

/-- `model.SocketState` is a Go `uint8`; we model the value as a `Nat`. -/
abbrev SocketState := Nat

def stateUnknown : SocketState := 0
def stateEstablished : SocketState := 1
def stateListen : SocketState := 10
def stateClosing : SocketState := 11

/-- The `stateNames` array of `internal/model/types.go`. -/
def stateNames : List String :=
  ["UNKNOWN", "ESTABLISHED", "SYN_SENT", "SYN_RECV", "FIN_WAIT1", "FIN_WAIT2",
   "TIME_WAIT", "CLOSE", "CLOSE_WAIT", "LAST_ACK", "LISTEN", "CLOSING"]

/-- `SocketState.String`: bounds-checked index into `stateNames`, with
`"UNKNOWN"` for any out-of-range value. -/
def stateString (s : SocketState) : String :=
  if h : s < stateNames.length then stateNames.get ⟨s, h⟩ else "UNKNOWN"

/-! ## IP addresses and `internal/geo` -/

/-- `net.IP`: either the nil slice, a 4-byte IPv4, or a 16-byte IPv6 value
(a v4-in-v6 mapped address is normalized by `to4`, as by `net.IP.To4`). -/
inductive IPAddr where
  | nil
  | v4 (a b c d : Nat)
  | v6 (bytes : List Nat)
deriving DecidableEq, Repr

/-- `net.IP.To4`: the 4 bytes of an IPv4 address, also accepting the
IPv4-in-IPv6 mapped form `::ffff:a.b.c.d`. -/
def IPAddr.to4 : IPAddr → Option (Nat × Nat × Nat × Nat)
  | .v4 a b c d => some (a, b, c, d)
  | .v6 bytes =>
    match bytes with
    | [0, 0, 0, 0, 0, 0, 0, 0, 0, 0, 0xff, 0xff, a, b, c, d] => some (a, b, c, d)
    | _ => none
  | .nil => none

/-- `geo.CountryInfo`. -/
structure CountryInfo where
  code : String
  flag : String
deriving DecidableEq, Repr

/-- `geo.ipRange` (`start`/`end`/`country`; `end` is a reserved word in Lean,
so the fields are `lo`/`hi`). -/
structure IpRange where
  lo : Nat
  hi : Nat
  country : String
deriving DecidableEq, Repr

/-- `geo.ipToU32`. -/
def ipToU32 (a b c d : Nat) : Nat :=
  a * 2 ^ 24 + b * 2 ^ 16 + c * 2 ^ 8 + d

/-- `r.end - r.start` as computed on Go `uint32` values. -/
def IpRange.span (r : IpRange) : Nat :=
  (r.hi + 2 ^ 32 - r.lo) % 2 ^ 32

/-- Whether `ipNum >= r.start && ipNum <= r.end`. -/
def IpRange.containsNum (r : IpRange) (n : Nat) : Bool :=
  decide (r.lo ≤ n) && decide (n ≤ r.hi)

/-- The `geo.ipRanges` table, verbatim from the source (split into chunks of
20 entries purely to keep elaboration fast; `ipRanges` is their concatenation
in source order). -/
def ipRangesChunk0 : List IpRange := [
  ⟨ipToU32 8 8 4 0, ipToU32 8 8 8 255, "US"⟩,
  ⟨ipToU32 8 34 208 0, ipToU32 8 35 207 255, "US"⟩,
  ⟨ipToU32 34 0 0 0, ipToU32 34 127 255 255, "US"⟩,
  ⟨ipToU32 35 184 0 0, ipToU32 35 199 255 255, "US"⟩,
  ⟨ipToU32 64 233 160 0, ipToU32 64 233 191 255, "US"⟩,
  ⟨ipToU32 66 102 0 0, ipToU32 66 102 15 255, "US"⟩,
  ⟨ipToU32 66 249 64 0, ipToU32 66 249 95 255, "US"⟩,
  ⟨ipToU32 72 14 192 0, ipToU32 72 14 255 255, "US"⟩,
  ⟨ipToU32 74 125 0 0, ipToU32 74 125 255 255, "US"⟩,
  ⟨ipToU32 142 250 0 0, ipToU32 142 251 255 255, "US"⟩,
  ⟨ipToU32 172 217 0 0, ipToU32 172 217 255 255, "US"⟩,
  ⟨ipToU32 173 194 0 0, ipToU32 173 194 255 255, "US"⟩,
  ⟨ipToU32 209 85 128 0, ipToU32 209 85 255 255, "US"⟩,
  ⟨ipToU32 216 58 192 0, ipToU32 216 58 223 255, "US"⟩,
  ⟨ipToU32 3 0 0 0, ipToU32 3 127 255 255, "US"⟩,
  ⟨ipToU32 13 32 0 0, ipToU32 13 35 255 255, "US"⟩,
  ⟨ipToU32 13 224 0 0, ipToU32 13 255 255 255, "US"⟩,
  ⟨ipToU32 52 0 0 0, ipToU32 52 95 255 255, "US"⟩,
  ⟨ipToU32 54 64 0 0, ipToU32 54 95 255 255, "US"⟩,
  ⟨ipToU32 54 144 0 0, ipToU32 54 255 255 255, "US"⟩]

def ipRangesChunk1 : List IpRange := [
  ⟨ipToU32 13 64 0 0, ipToU32 13 107 255 255, "US"⟩,
  ⟨ipToU32 20 0 0 0, ipToU32 20 63 255 255, "US"⟩,
  ⟨ipToU32 40 64 0 0, ipToU32 40 127 255 255, "US"⟩,
  ⟨ipToU32 52 96 0 0, ipToU32 52 191 255 255, "US"⟩,
  ⟨ipToU32 104 40 0 0, ipToU32 104 47 255 255, "US"⟩,
  ⟨ipToU32 204 79 195 0, ipToU32 204 79 197 255, "US"⟩,
  ⟨ipToU32 1 0 0 0, ipToU32 1 1 1 255, "US"⟩,
  ⟨ipToU32 104 16 0 0, ipToU32 104 31 255 255, "US"⟩,
  ⟨ipToU32 172 64 0 0, ipToU32 172 71 255 255, "US"⟩,
  ⟨ipToU32 188 114 96 0, ipToU32 188 114 99 255, "US"⟩,
  ⟨ipToU32 198 41 128 0, ipToU32 198 41 255 255, "US"⟩,
  ⟨ipToU32 31 13 24 0, ipToU32 31 13 31 255, "US"⟩,
  ⟨ipToU32 157 240 0 0, ipToU32 157 240 255 255, "US"⟩,
  ⟨ipToU32 179 60 192 0, ipToU32 179 60 195 255, "US"⟩,
  ⟨ipToU32 23 0 0 0, ipToU32 23 79 255 255, "US"⟩,
  ⟨ipToU32 104 64 0 0, ipToU32 104 127 255 255, "US"⟩,
  ⟨ipToU32 17 0 0 0, ipToU32 17 255 255 255, "US"⟩,
  ⟨ipToU32 5 1 0 0, ipToU32 5 1 127 255, "DE"⟩,
  ⟨ipToU32 46 0 0 0, ipToU32 46 0 255 255, "DE"⟩,
  ⟨ipToU32 78 46 0 0, ipToU32 78 47 255 255, "DE"⟩]

def ipRangesChunk2 : List IpRange := [
  ⟨ipToU32 85 13 128 0, ipToU32 85 13 255 255, "DE"⟩,
  ⟨ipToU32 195 50 140 0, ipToU32 195 50 143 255, "DE"⟩,
  ⟨ipToU32 2 16 0 0, ipToU32 2 31 255 255, "GB"⟩,
  ⟨ipToU32 5 62 0 0, ipToU32 5 63 255 255, "GB"⟩,
  ⟨ipToU32 51 0 0 0, ipToU32 51 15 255 255, "GB"⟩,
  ⟨ipToU32 2 0 0 0, ipToU32 2 15 255 255, "FR"⟩,
  ⟨ipToU32 5 39 0 0, ipToU32 5 39 127 255, "FR"⟩,
  ⟨ipToU32 51 68 0 0, ipToU32 51 79 255 255, "FR"⟩,
  ⟨ipToU32 91 134 0 0, ipToU32 91 134 255 255, "FR"⟩,
  ⟨ipToU32 5 2 0 0, ipToU32 5 2 255 255, "NL"⟩,
  ⟨ipToU32 31 3 0 0, ipToU32 31 3 255 255, "NL"⟩,
  ⟨ipToU32 37 48 0 0, ipToU32 37 63 255 255, "NL"⟩,
  ⟨ipToU32 178 162 0 0, ipToU32 178 162 255 255, "NL"⟩,
  ⟨ipToU32 1 0 16 0, ipToU32 1 0 31 255, "JP"⟩,
  ⟨ipToU32 27 0 0 0, ipToU32 27 15 255 255, "JP"⟩,
  ⟨ipToU32 36 2 0 0, ipToU32 36 3 255 255, "JP"⟩,
  ⟨ipToU32 49 212 0 0, ipToU32 49 213 255 255, "JP"⟩,
  ⟨ipToU32 103 5 140 0, ipToU32 103 5 143 255, "JP"⟩,
  ⟨ipToU32 133 0 0 0, ipToU32 133 255 255 255, "JP"⟩,
  ⟨ipToU32 210 0 0 0, ipToU32 210 255 255 255, "JP"⟩]

def ipRangesChunk3 : List IpRange := [
  ⟨ipToU32 1 0 1 0, ipToU32 1 0 3 255, "CN"⟩,
  ⟨ipToU32 14 0 0 0, ipToU32 14 31 255 255, "CN"⟩,
  ⟨ipToU32 36 0 0 0, ipToU32 36 1 255 255, "CN"⟩,
  ⟨ipToU32 42 0 0 0, ipToU32 42 127 255 255, "CN"⟩,
  ⟨ipToU32 58 0 0 0, ipToU32 58 63 255 255, "CN"⟩,
  ⟨ipToU32 101 0 0 0, ipToU32 101 127 255 255, "CN"⟩,
  ⟨ipToU32 106 0 0 0, ipToU32 106 127 255 255, "CN"⟩,
  ⟨ipToU32 110 0 0 0, ipToU32 110 255 255 255, "CN"⟩,
  ⟨ipToU32 111 0 0 0, ipToU32 111 255 255 255, "CN"⟩,
  ⟨ipToU32 112 0 0 0, ipToU32 112 127 255 255, "CN"⟩,
  ⟨ipToU32 114 0 0 0, ipToU32 114 127 255 255, "CN"⟩,
  ⟨ipToU32 116 0 0 0, ipToU32 116 127 255 255, "CN"⟩,
  ⟨ipToU32 119 0 0 0, ipToU32 119 63 255 255, "CN"⟩,
  ⟨ipToU32 120 0 0 0, ipToU32 120 127 255 255, "CN"⟩,
  ⟨ipToU32 121 0 0 0, ipToU32 121 127 255 255, "CN"⟩,
  ⟨ipToU32 122 0 0 0, ipToU32 122 127 255 255, "CN"⟩,
  ⟨ipToU32 123 0 0 0, ipToU32 123 127 255 255, "CN"⟩,
  ⟨ipToU32 124 0 0 0, ipToU32 124 127 255 255, "CN"⟩,
  ⟨ipToU32 125 0 0 0, ipToU32 125 127 255 255, "CN"⟩,
  ⟨ipToU32 180 76 0 0, ipToU32 180 76 255 255, "CN"⟩]

def ipRangesChunk4 : List IpRange := [
  ⟨ipToU32 182 0 0 0, ipToU32 182 127 255 255, "CN"⟩,
  ⟨ipToU32 183 0 0 0, ipToU32 183 255 255 255, "CN"⟩,
  ⟨ipToU32 202 96 0 0, ipToU32 202 111 255 255, "CN"⟩,
  ⟨ipToU32 218 0 0 0, ipToU32 218 127 255 255, "CN"⟩,
  ⟨ipToU32 220 0 0 0, ipToU32 220 255 255 255, "CN"⟩,
  ⟨ipToU32 221 0 0 0, ipToU32 221 255 255 255, "CN"⟩,
  ⟨ipToU32 222 0 0 0, ipToU32 222 255 255 255, "CN"⟩,
  ⟨ipToU32 223 0 0 0, ipToU32 223 255 255 255, "CN"⟩,
  ⟨ipToU32 1 11 0 0, ipToU32 1 11 255 255, "KR"⟩,
  ⟨ipToU32 14 32 0 0, ipToU32 14 63 255 255, "KR"⟩,
  ⟨ipToU32 27 96 0 0, ipToU32 27 127 255 255, "KR"⟩,
  ⟨ipToU32 39 0 0 0, ipToU32 39 15 255 255, "KR"⟩,
  ⟨ipToU32 58 64 0 0, ipToU32 58 79 255 255, "KR"⟩,
  ⟨ipToU32 112 128 0 0, ipToU32 112 191 255 255, "KR"⟩,
  ⟨ipToU32 175 192 0 0, ipToU32 175 223 255 255, "KR"⟩,
  ⟨ipToU32 211 0 0 0, ipToU32 211 63 255 255, "KR"⟩,
  ⟨ipToU32 14 96 0 0, ipToU32 14 143 255 255, "IN"⟩,
  ⟨ipToU32 27 56 0 0, ipToU32 27 63 255 255, "IN"⟩,
  ⟨ipToU32 43 224 0 0, ipToU32 43 255 255 255, "IN"⟩,
  ⟨ipToU32 49 32 0 0, ipToU32 49 47 255 255, "IN"⟩]

def ipRangesChunk5 : List IpRange := [
  ⟨ipToU32 103 0 0 0, ipToU32 103 5 139 255, "IN"⟩,
  ⟨ipToU32 117 192 0 0, ipToU32 117 255 255 255, "IN"⟩,
  ⟨ipToU32 5 3 0 0, ipToU32 5 3 255 255, "RU"⟩,
  ⟨ipToU32 5 8 0 0, ipToU32 5 8 255 255, "RU"⟩,
  ⟨ipToU32 31 13 0 0, ipToU32 31 13 23 255, "RU"⟩,
  ⟨ipToU32 46 8 0 0, ipToU32 46 8 255 255, "RU"⟩,
  ⟨ipToU32 77 88 0 0, ipToU32 77 88 63 255, "RU"⟩,
  ⟨ipToU32 87 240 0 0, ipToU32 87 240 255 255, "RU"⟩,
  ⟨ipToU32 93 158 0 0, ipToU32 93 158 255 255, "RU"⟩,
  ⟨ipToU32 95 163 0 0, ipToU32 95 163 255 255, "RU"⟩,
  ⟨ipToU32 185 32 0 0, ipToU32 185 32 127 255, "RU"⟩,
  ⟨ipToU32 213 180 0 0, ipToU32 213 180 255 255, "RU"⟩,
  ⟨ipToU32 45 160 0 0, ipToU32 45 175 255 255, "BR"⟩,
  ⟨ipToU32 131 0 0 0, ipToU32 131 0 255 255, "BR"⟩,
  ⟨ipToU32 177 0 0 0, ipToU32 177 127 255 255, "BR"⟩,
  ⟨ipToU32 179 0 0 0, ipToU32 179 60 191 255, "BR"⟩,
  ⟨ipToU32 186 192 0 0, ipToU32 186 255 255 255, "BR"⟩,
  ⟨ipToU32 187 0 0 0, ipToU32 187 127 255 255, "BR"⟩,
  ⟨ipToU32 189 0 0 0, ipToU32 189 127 255 255, "BR"⟩,
  ⟨ipToU32 200 0 0 0, ipToU32 200 255 255 255, "BR"⟩]

def ipRangesChunk6 : List IpRange := [
  ⟨ipToU32 201 0 0 0, ipToU32 201 63 255 255, "BR"⟩,
  ⟨ipToU32 1 0 4 0, ipToU32 1 0 7 255, "AU"⟩,
  ⟨ipToU32 1 40 0 0, ipToU32 1 47 255 255, "AU"⟩,
  ⟨ipToU32 27 32 0 0, ipToU32 27 55 255 255, "AU"⟩,
  ⟨ipToU32 43 224 0 0, ipToU32 43 239 255 255, "AU"⟩,
  ⟨ipToU32 49 176 0 0, ipToU32 49 191 255 255, "AU"⟩,
  ⟨ipToU32 101 128 0 0, ipToU32 101 191 255 255, "AU"⟩,
  ⟨ipToU32 103 128 0 0, ipToU32 103 143 255 255, "AU"⟩,
  ⟨ipToU32 203 0 0 0, ipToU32 203 63 255 255, "AU"⟩,
  ⟨ipToU32 24 48 0 0, ipToU32 24 63 255 255, "CA"⟩,
  ⟨ipToU32 67 68 0 0, ipToU32 67 71 255 255, "CA"⟩,
  ⟨ipToU32 99 224 0 0, ipToU32 99 255 255 255, "CA"⟩,
  ⟨ipToU32 142 0 0 0, ipToU32 142 3 255 255, "CA"⟩,
  ⟨ipToU32 192 206 0 0, ipToU32 192 206 255 255, "CA"⟩,
  ⟨ipToU32 199 7 0 0, ipToU32 199 7 255 255, "CA"⟩,
  ⟨ipToU32 1 32 0 0, ipToU32 1 39 255 255, "SG"⟩,
  ⟨ipToU32 13 212 0 0, ipToU32 13 215 255 255, "SG"⟩,
  ⟨ipToU32 27 124 0 0, ipToU32 27 125 255 255, "SG"⟩,
  ⟨ipToU32 43 128 0 0, ipToU32 43 159 255 255, "SG"⟩,
  ⟨ipToU32 49 128 0 0, ipToU32 49 143 255 255, "SG"⟩]

def ipRangesChunk7 : List IpRange := [
  ⟨ipToU32 52 74 0 0, ipToU32 52 77 255 255, "SG"⟩,
  ⟨ipToU32 54 169 0 0, ipToU32 54 169 255 255, "SG"⟩,
  ⟨ipToU32 103 6 0 0, ipToU32 103 7 255 255, "SG"⟩,
  ⟨ipToU32 175 41 128 0, ipToU32 175 41 191 255, "SG"⟩,
  ⟨ipToU32 1 52 0 0, ipToU32 1 55 255 255, "VN"⟩,
  ⟨ipToU32 14 160 0 0, ipToU32 14 191 255 255, "VN"⟩,
  ⟨ipToU32 27 64 0 0, ipToU32 27 79 255 255, "VN"⟩,
  ⟨ipToU32 42 112 0 0, ipToU32 42 119 255 255, "VN"⟩,
  ⟨ipToU32 43 239 0 0, ipToU32 43 239 255 255, "VN"⟩,
  ⟨ipToU32 49 156 0 0, ipToU32 49 159 255 255, "VN"⟩,
  ⟨ipToU32 58 186 0 0, ipToU32 58 187 255 255, "VN"⟩,
  ⟨ipToU32 103 1 0 0, ipToU32 103 1 255 255, "VN"⟩,
  ⟨ipToU32 113 160 0 0, ipToU32 113 191 255 255, "VN"⟩,
  ⟨ipToU32 115 72 0 0, ipToU32 115 79 255 255, "VN"⟩,
  ⟨ipToU32 171 224 0 0, ipToU32 171 255 255 255, "VN"⟩,
  ⟨ipToU32 180 148 0 0, ipToU32 180 148 255 255, "VN"⟩,
  ⟨ipToU32 203 113 0 0, ipToU32 203 113 255 255, "VN"⟩,
  ⟨ipToU32 203 162 0 0, ipToU32 203 162 255 255, "VN"⟩,
  ⟨ipToU32 210 86 0 0, ipToU32 210 86 255 255, "VN"⟩]

def ipRanges : List IpRange :=
  ipRangesChunk0 ++ ipRangesChunk1 ++ ipRangesChunk2 ++ ipRangesChunk3 ++ ipRangesChunk4 ++ ipRangesChunk5 ++ ipRangesChunk6 ++ ipRangesChunk7

/-- `geo.isPrivate`: the five masked ranges checked by the source
(10/8, 172.16/12, 192.168/16, 100.64/10 CGNAT, 169.254/16 link-local). -/
def isPrivate4 (a b : Nat) : Bool :=
  (a == 10) || (a == 172 && 16 ≤ b && b < 32) || (a == 192 && b == 168) ||
  (a == 100 && 64 ≤ b && b < 128) || (a == 169 && b == 254)

/-- `net.IP.IsLoopback` on a 4-byte address. -/
def isLoopback4 (a : Nat) : Bool := a == 127

/-- `net.IP.IsMulticast` on a 4-byte address (`224.0.0.0/4`). -/
def isMulticast4 (a : Nat) : Bool := 224 ≤ a && a < 240

/-- `geo.countryFlag`. -/
def countryFlag (code : String) : String :=
  if code.length != 2 then "🌐"
  else
    match code.toList with
    | [c1, c2] =>
      String.mk [Char.ofNat (c1.toNat - 65 + 0x1F1E6), Char.ofNat (c2.toNat - 65 + 0x1F1E6)]
    | _ => "🌐"

/-- One iteration of the best-match loop inside `geo.Lookup`: keep the
containing range of smallest span seen so far (`bestMatch == nil ||
(r.end-r.start) < (bestMatch.end-bestMatch.start)`). -/
def bmStep (n : Nat) (best : Option IpRange) (r : IpRange) : Option IpRange :=
  if r.containsNum n then
    match best with
    | Option.none => some r
    | some b => if r.span < b.span then some r else some b
  else best

/-- The best-match loop of `geo.Lookup` over the range table. -/
def bestMatchFold (rs : List IpRange) (n : Nat) : Option IpRange :=
  rs.foldl (bmStep n) Option.none

/-- `geo.Lookup`. -/
def geoLookup (ip : IPAddr) : CountryInfo :=
  match ip.to4 with
  | Option.none => ⟨"", ""⟩
  | some (a, b, c, d) =>
    if isPrivate4 a b then ⟨"LAN", "🏠"⟩
    else if isLoopback4 a then ⟨"LO", "🏠"⟩
    else if isMulticast4 a then ⟨"MC", "📡"⟩
    else
      match bestMatchFold ipRanges (ipToU32 a b c d) with
      | some r => ⟨r.country, countryFlag r.country⟩
      | Option.none => ⟨"", ""⟩

/-- `CountryInfo.Format`. -/
def CountryInfo.format (c : CountryInfo) : String :=
  if c.code = "" then "" else c.flag ++ " " ++ c.code


/-! ## Cgroup classification (`internal/platform`, Linux cgroup parsing) -/

/-- `platform.CgroupInfo`. -/
structure CgroupInfo where
  containerID : Str
  serviceName : Str
deriving DecidableEq, Repr

/-- `platform.shortID`: first 12 characters of a container ID. -/
def shortID (id : Str) : Str :=
  if id.length > 12 then id.take 12 else id

/-- The `docker-<id>.scope` segment scan of `platform.extractDockerID`
(`strings.TrimPrefix "docker-"` drops 7 characters, `strings.TrimSuffix
".scope"` drops the final 6). -/
def dockerScopeScan : List Str → Str
  | [] => []
  | seg :: rest =>
    if startsWith seg dockerLead && endsWith seg scopeSuffix then
      let core := seg.drop 7
      shortID (core.take (core.length - 6))
    else dockerScopeScan rest

/-- `platform.extractDockerID`: `/docker/<id>` (suffix after the first
occurrence, truncated at the next `/`), else `docker-<id>.scope` segments. -/
def extractDockerID (cgPath : Str) : Str :=
  match splitOnStr cgPath dockerDir with
  | _ :: r :: rest =>
    let id := joinWith dockerDir (r :: rest)
    let id := (splitOnCh '/' id).headD id
    shortID id
  | _ => dockerScopeScan (splitOnCh '/' cgPath)

/-- The `libpod-<id>` segment scan of `platform.extractPodmanID`
(`strings.TrimPrefix "libpod-"` drops 7 characters; the ID is truncated at
the first `.`, if any). -/
def podmanScan : List Str → Str
  | [] => []
  | seg :: rest =>
    if startsWith seg libpodLead then
      let id := seg.drop 7
      shortID ((splitOnCh '.' id).headD id)
    else podmanScan rest

/-- `platform.extractPodmanID`. -/
def extractPodmanID (cgPath : Str) : Str :=
  podmanScan (splitOnCh '/' cgPath)

/-- The segment loop of `platform.extractSystemdService`: the first segment
ending in `.service` is returned, except that `docker-`-led segments are
skipped (`continue`). -/
def serviceScan : List Str → Str
  | [] => []
  | seg :: rest =>
    if endsWith seg svcSuffix then
      if startsWith seg dockerLead then serviceScan rest else seg
    else serviceScan rest

/-- `platform.extractSystemdService`. -/
def extractSystemdService (cgPath : Str) : Str :=
  serviceScan (splitOnCh '/' cgPath)

/-- One iteration of the line loop of `platform.parseCgroup`: trim, skip
empty lines, split `hierarchy:controllers:path` (`strings.SplitN _ ":" 3`,
so the path may itself contain `:`), then fill each still-empty field. -/
def parseCgroupLine (info : CgroupInfo) (rawLine : Str) : CgroupInfo :=
  let line := trimSpace rawLine
  if line = [] then info
  else
    match splitOnCh ':' line with
    | _ :: _ :: p2 :: rest =>
      let cgPath := joinWith [':'] (p2 :: rest)
      let info :=
        if info.containerID = [] then
          let id := extractDockerID cgPath
          if id ≠ [] then { info with containerID := id } else info
        else info
      let info :=
        if info.containerID = [] then
          let id := extractPodmanID cgPath
          if id ≠ [] then { info with containerID := id } else info
        else info
      let info :=
        if info.serviceName = [] then
          let svc := extractSystemdService cgPath
          if svc ≠ [] then { info with serviceName := svc } else info
        else info
      info
    | _ => info

/-- `platform.parseCgroup`. -/
def parseCgroup (content : Str) : CgroupInfo :=
  (splitOnCh (Char.ofNat 10) content).foldl parseCgroupLine ⟨[], []⟩


/-! ## `internal/model/service.go` -/

/-- The `model.serviceMap` port table (entries in source order). -/
def serviceMap : List (Nat × String) := [
  (20, "FTP-D"), (21, "FTP"), (22, "SSH"), (23, "TELNET"), (25, "SMTP"),
  (53, "DNS"), (67, "DHCP"), (68, "DHCP"), (80, "HTTP"), (110, "POP3"),
  (123, "NTP"), (143, "IMAP"), (161, "SNMP"), (162, "SNMP"), (389, "LDAP"),
  (443, "HTTPS"), (445, "SMB"), (465, "SMTPS"), (514, "SYSLOG"), (587, "SMTP"),
  (636, "LDAPS"), (853, "DoT"), (993, "IMAPS"), (995, "POP3S"), (1080, "SOCKS"),
  (1194, "OVPN"), (1433, "MSSQL"), (1434, "MSSQL"), (1521, "ORACLE"), (1883, "MQTT"),
  (2049, "NFS"), (3306, "MYSQL"), (3389, "RDP"), (5432, "PGSQL"), (5672, "AMQP"),
  (5900, "VNC"), (6379, "REDIS"), (6443, "K8S"), (8080, "HTTP-A"), (8443, "HTTPS"),
  (8883, "MQTTS"), (9090, "PROM"), (9092, "KAFKA"), (9200, "ELAST"), (9300, "ELAST"),
  (11211, "MEMCD"), (27017, "MONGO"), (5353, "MDNS"), (8888, "HTTP-A")]

/-- Go map lookup in `serviceMap`. -/
def lookupService (port : Nat) : Option String :=
  (serviceMap.find? (fun p => p.1 == port)).map (fun p => p.2)

/-- `model.ServiceName`: destination port first, then source port. -/
def serviceNameFor (dstPort srcPort : Nat) : String :=
  match lookupService dstPort with
  | some s => s
  | Option.none =>
    match lookupService srcPort with
    | some s => s
    | Option.none => ""

/-! ## Association lists (Go maps, iteration in insertion order) -/

/-- Go map read `m[k]`. -/
def alookup {κ β : Type} [DecidableEq κ] (m : List (κ × β)) (k : κ) : Option β :=
  match m with
  | [] => Option.none
  | (k1, v) :: rest => if k1 = k then some v else alookup rest k

/-- Go map write `m[k] = v` (replace in place, else append). -/
def aupsert {κ β : Type} [DecidableEq κ] (m : List (κ × β)) (k : κ) (v : β) :
    List (κ × β) :=
  match m with
  | [] => [(k, v)]
  | (k1, v1) :: rest =>
    if k1 = k then (k, v) :: rest else (k1, v1) :: aupsert rest k v

/-! ## Socket identity (`internal/platform/platform.go`) -/

/-- `platform.MappedSocket` with the embedded `model.Socket` fields.
Ports and PIDs are Go `uint16`/`uint32` values carried as `Nat` (they are
never arithmetically combined), counters are Go `uint64` as `Nat`. -/
structure MappedSocket where
  proto : Protocol
  srcIP : IPAddr
  srcPort : Nat
  dstIP : IPAddr
  dstPort : Nat
  state : SocketState
  inode : Nat
  bytesSent : Nat
  bytesRecv : Nat
  pid : Nat
  processName : String
  cmdline : String
deriving DecidableEq, Repr

/-- `net.IP.IsUnspecified` (`0.0.0.0` or `::`, including the 4-mapped form). -/
def IPAddr.isUnspecified (ip : IPAddr) : Bool :=
  match ip.to4 with
  | some (a, b, c, d) => a == 0 && b == 0 && c == 0 && d == 0
  | Option.none =>
    match ip with
    | .v6 bs => bs == List.replicate 16 0
    | _ => false

/-- The `"ip:port"` strings built by `platform.formatAddr` / `model.AddrPort`,
modelled structurally: `.any p` is the `*:p` form (nil or unspecified IP),
`.ip4` the dotted-quad form (`AddrPort` prints via `To4` whenever possible),
`.ip6` the bracketed form. Distinct values render to distinct strings, so
equality of these values coincides with equality of the Go key strings. -/
inductive AddrKey where
  | any (port : Nat)
  | ip4 (a b c d : Nat) (port : Nat)
  | ip6 (bytes : List Nat) (port : Nat)
deriving DecidableEq, Repr

/-- `platform.formatAddr` (the `_ => .any port` arm is unreachable: a value
that is neither nil nor 4-normalizable is a `.v6`). -/
def formatAddr (ip : IPAddr) (port : Nat) : AddrKey :=
  if ip = .nil || ip.isUnspecified then .any port
  else
    match ip.to4 with
    | some (a, b, c, d) => .ip4 a b c d port
    | Option.none =>
      match ip with
      | .v6 bs => .ip6 bs port
      | _ => .any port

/-- `platform.SocketKey`. -/
structure SocketKey where
  proto : Protocol
  srcAddr : AddrKey
  dstAddr : AddrKey
deriving DecidableEq, Repr

/-- `platform.MakeSocketKey`. -/
def makeSocketKey (s : MappedSocket) : SocketKey :=
  ⟨s.proto, formatAddr s.srcIP s.srcPort, formatAddr s.dstIP s.dstPort⟩

/-! ## Snapshot data model (`internal/model`, current `part_000` version) -/

/-- `model.Connection`. -/
structure Connection where
  proto : Protocol
  srcIP : IPAddr
  srcPort : Nat
  dstIP : IPAddr
  dstPort : Nat
  state : SocketState
  upRate : ℚ
  downRate : ℚ
  age : ℚ
  remoteHost : String
  service : String
deriving DecidableEq, Repr

/-- `model.ListenPort`. -/
structure ListenPort where
  proto : Protocol
  ip : IPAddr
  port : Nat
deriving DecidableEq, Repr

/-- `model.ProcessSummary`. -/
structure ProcessSummary where
  pid : Nat
  ppid : Nat
  name : String
  cmdline : String
  upRate : ℚ
  downRate : ℚ
  connections : List Connection
  listenPorts : List ListenPort
  connCount : Nat
  listenCount : Nat
  cumUp : Nat
  cumDown : Nat
  containerID : Str
  serviceName : Str
  rateHistory : List ℚ
deriving DecidableEq, Repr

/-- `model.InterfaceStats` (also the per-interface sampler record). -/
structure InterfaceStats where
  name : String
  bytesRecv : Nat
  bytesSent : Nat
  recvRate : ℚ
  sendRate : ℚ
deriving DecidableEq, Repr

/-- `model.RemoteHostSummary`. -/
structure RemoteHostSummary where
  host : String
  ip : IPAddr
  country : String
  upRate : ℚ
  downRate : ℚ
  connCount : Nat
  processes : List String
deriving DecidableEq, Repr

/-- `model.ListenPortEntry`. -/
structure ListenPortEntry where
  proto : Protocol
  ip : IPAddr
  port : Nat
  pid : Nat
  process : String
  cmdline : String
deriving DecidableEq, Repr

/-- `model.Snapshot`. -/
structure Snapshot where
  timestamp : ℚ
  processes : List ProcessSummary
  interfaces : List InterfaceStats
  remoteHosts : List RemoteHostSummary
  listenPorts : List ListenPortEntry
  totalUp : ℚ
  totalDown : ℚ
  totalRateHistory : List ℚ
deriving DecidableEq, Repr

/-- `model.ProcessCumulative`. -/
structure ProcessCumulative where
  pid : Nat
  name : String
  bytesUp : Nat
  bytesDown : Nat
deriving DecidableEq, Repr

/-! ## The collector (`internal/collector/collector.go`) -/

/-- `collector.emaAlpha = 0.3`. -/
def emaAlpha : ℚ := 3 / 10

/-- Modelled from the spec (§4.2): the collector's `EMA` type (`NewEMA`,
`Update`) is not under `src/`. Initial value 0; `update(raw)` sets
`value := α·raw + (1-α)·value` and returns it. -/
structure EMA where
  alpha : ℚ
  value : ℚ
deriving DecidableEq, Repr

def EMA.new (alpha : ℚ) : EMA := ⟨alpha, 0⟩

/-- `EMA.Update`, returning the new state and the returned value. -/
def EMA.update (e : EMA) (raw : ℚ) : EMA × ℚ :=
  let v := e.alpha * raw + (1 - e.alpha) * e.value
  (⟨e.alpha, v⟩, v)

/-- Modelled from the spec (§4.3): the collector's `RingBuffer`
(`NewRingBufferN`, `Push`, `Samples`) is not under `src/`. Fixed capacity,
`push` drops the oldest when full, `samples` is chronological. The zero
value `&RingBuffer{}` used for per-process history gets the same capacity
as the system buffer (the spec: "per-process history capacity is the same
order"). -/
structure RingBuffer where
  capacity : Nat
  data : List ℚ
deriving DecidableEq, Repr

def RingBuffer.newN (n : Nat) : RingBuffer := ⟨n, []⟩

def RingBuffer.push (b : RingBuffer) (v : ℚ) : RingBuffer :=
  let d := b.data ++ [v]
  ⟨b.capacity, d.drop (d.length - b.capacity)⟩

def RingBuffer.samples (b : RingBuffer) : List ℚ := b.data

/-- `collector.socketTracker`. -/
structure SocketTracker where
  prevBytesSent : Nat
  prevBytesRecv : Nat
  upEMA : EMA
  downEMA : EMA
  firstSeen : ℚ
  lastSeen : ℚ
deriving DecidableEq, Repr

/-- `collector.ifaceTracker`. -/
structure IfaceTracker where
  prevBytesSent : Nat
  prevBytesRecv : Nat
  upEMA : EMA
  downEMA : EMA
deriving DecidableEq, Repr

/-- The mutable state of `collector.Collector` owned by the poll loop
(`sockets`, `ifaces`, `procHistory`, `totalHistory`, `lastPoll`, and the
cumulative accounting). `lastPoll = none` models the zero `time.Time`
(`IsZero`). -/
structure CollectorState where
  sockets : List (SocketKey × SocketTracker)
  ifaces : List (String × IfaceTracker)
  procHistory : List (Nat × RingBuffer)
  totalHistory : RingBuffer
  lastPoll : Option ℚ
  totalCumUp : Nat
  totalCumDown : Nat
  cumByPID : List (Nat × ProcessCumulative)
deriving DecidableEq, Repr

/-- `collector.New`: empty maps, a 60-sample total history, no poll yet. -/
def initialState : CollectorState :=
  ⟨[], [], [], RingBuffer.newN 60, Option.none, 0, 0, []⟩

/-- Modelled from the spec: the sampler side-channels `read_ppid` and
`read_cgroup` (which read `/proc` of the live system; `platform.ReadPPID`
is not under `src/`) and the DNS reverse-resolution of `DNSCache.Resolve`
(not under `src/`; DNS is out of scope per §1) are abstracted as pure
environment functions. No claim depends on their values. -/
structure PollEnv where
  ppidOf : Nat → Nat
  cgroupOf : Nat → Str × Str
  resolve : IPAddr → String

/-- The per-poll constants of `Collector.poll`: wall time `now`, the
clamped elapsed seconds `dt`, and the first-poll flag. -/
structure PollCtx where
  now : ℚ
  dt : ℚ
  isFirstPoll : Bool
deriving DecidableEq, Repr

/-- `collector.safeDelta`: clamp decreasing counters to 0. -/
def safeDelta (current previous : Nat) : Nat :=
  if current ≥ previous then current - previous else 0

/-- The per-process aggregation record `procData` of `Collector.poll`. -/
structure ProcData where
  pid : Nat
  name : String
  cmdline : String
  conns : List Connection
  listen : List ListenPort
  upRate : ℚ
  downRate : ℚ
deriving DecidableEq, Repr

/-- A fresh `procData` bucket as built by `getProc`. -/
def newProcData (pid : Nat) (name cmdline : String) : ProcData :=
  ⟨pid, name, cmdline, [], [], 0, 0⟩

/-- `getProc` followed by a mutation of the bucket through its pointer:
update the existing bucket for `pid` in place, or create and update it. -/
def updateProc (procs : List (Nat × ProcData)) (pid : Nat) (name cmdline : String)
    (f : ProcData → ProcData) : List (Nat × ProcData) :=
  match procs with
  | [] => [(pid, f (newProcData pid name cmdline))]
  | (k, pd) :: rest =>
    if k = pid then (k, f pd) :: rest
    else (k, pd) :: updateProc rest pid name cmdline f

/-- The accumulator threaded through the socket loop of `Collector.poll`. -/
structure SockAcc where
  sockets : List (SocketKey × SocketTracker)
  activeKeys : List SocketKey
  totalCumUp : Nat
  totalCumDown : Nat
  cumByPID : List (Nat × ProcessCumulative)
  procs : List (Nat × ProcData)
deriving DecidableEq, Repr

/-- The `upRate`/`downRate` locals computed for one socket by the loop body
of `Collector.poll`: zero on the first poll or when the tracker was created
this poll, otherwise the EMA-smoothed clamped deltas over `dt`. -/
def socketRates (ctx : PollCtx) (sockets : List (SocketKey × SocketTracker))
    (s : MappedSocket) : ℚ × ℚ :=
  match alookup sockets (makeSocketKey s) with
  | Option.none => (0, 0)
  | some tracker =>
    if ctx.isFirstPoll then (0, 0)
    else
      ((tracker.upEMA.update ((safeDelta s.bytesSent tracker.prevBytesSent : ℚ) / ctx.dt)).2,
       (tracker.downEMA.update ((safeDelta s.bytesRecv tracker.prevBytesRecv : ℚ) / ctx.dt)).2)

/-- One iteration of the socket loop of `Collector.poll` (lines 182-255):
key the socket, create the tracker if missing (seeding `prev` counters so
the next poll produces the first rate), compute rates and cumulative
deltas when not the first poll and the tracker pre-existed, update the
tracker, and dispatch into the per-process bucket. Go `uint64` cumulative
additions are reduced mod `2^64`. -/
def processSocket (env : PollEnv) (ctx : PollCtx) (acc : SockAcc)
    (s : MappedSocket) : SockAcc :=
  let key := makeSocketKey s
  let activeKeys := key :: acc.activeKeys
  let found := alookup acc.sockets key
  let tracker0 : SocketTracker :=
    match found with
    | some t => t
    | Option.none => ⟨s.bytesSent, s.bytesRecv, EMA.new emaAlpha, EMA.new emaAlpha, ctx.now, 0⟩
  let rates := socketRates ctx acc.sockets s
  let upRate := rates.1
  let downRate := rates.2
  let computed : Bool := !ctx.isFirstPoll && found.isSome
  let deltaSent := safeDelta s.bytesSent tracker0.prevBytesSent
  let deltaRecv := safeDelta s.bytesRecv tracker0.prevBytesRecv
  let tracker1 :=
    if computed then
      { tracker0 with
        upEMA := (tracker0.upEMA.update ((deltaSent : ℚ) / ctx.dt)).1,
        downEMA := (tracker0.downEMA.update ((deltaRecv : ℚ) / ctx.dt)).1 }
    else tracker0
  let totalCumUp := if computed then (acc.totalCumUp + deltaSent) % 2 ^ 64 else acc.totalCumUp
  let totalCumDown := if computed then (acc.totalCumDown + deltaRecv) % 2 ^ 64 else acc.totalCumDown
  let cumByPID :=
    if computed && s.pid != 0 then
      let pc0 : ProcessCumulative :=
        match alookup acc.cumByPID s.pid with
        | some pc => pc
        | Option.none => ⟨s.pid, s.processName, 0, 0⟩
      let pc1 := { pc0 with bytesUp := (pc0.bytesUp + deltaSent) % 2 ^ 64,
                            bytesDown := (pc0.bytesDown + deltaRecv) % 2 ^ 64 }
      let pc2 := if pc1.name = "" then { pc1 with name := s.processName } else pc1
      aupsert acc.cumByPID s.pid pc2
    else acc.cumByPID
  let tracker2 := { tracker1 with prevBytesSent := s.bytesSent,
                                  prevBytesRecv := s.bytesRecv, lastSeen := ctx.now }
  let sockets1 := aupsert acc.sockets key tracker2
  let procs1 :=
    if s.state = stateListen then
      updateProc acc.procs s.pid s.processName s.cmdline (fun pd =>
        { pd with listen := pd.listen ++ [⟨s.proto, s.srcIP, s.srcPort⟩],
                  upRate := pd.upRate + upRate, downRate := pd.downRate + downRate })
    else
      updateProc acc.procs s.pid s.processName s.cmdline (fun pd =>
        { pd with
          conns := pd.conns ++ [{ proto := s.proto, srcIP := s.srcIP, srcPort := s.srcPort,
                                  dstIP := s.dstIP, dstPort := s.dstPort, state := s.state,
                                  upRate := upRate, downRate := downRate,
                                  age := ctx.now - tracker0.firstSeen,
                                  remoteHost := env.resolve s.dstIP,
                                  service := serviceNameFor s.dstPort s.srcPort }],
          upRate := pd.upRate + upRate, downRate := pd.downRate + downRate })
  ⟨sockets1, activeKeys, totalCumUp, totalCumDown, cumByPID, procs1⟩

/-- The stale-tracker sweep (lines 257-263): drop trackers whose key was
not observed this poll and whose `lastSeen` is before `now - 30s`. -/
def evictStale (now : ℚ) (activeKeys : List SocketKey)
    (sockets : List (SocketKey × SocketTracker)) : List (SocketKey × SocketTracker) :=
  sockets.filter (fun kt => decide (kt.1 ∈ activeKeys) || !(decide (kt.2.lastSeen < now - 30)))

/-- The accumulator of the interface loop of `Collector.poll`. -/
structure IfaceAcc where
  ifaces : List (String × IfaceTracker)
  stats : List InterfaceStats
  totalUp : ℚ
  totalDown : ℚ
deriving DecidableEq, Repr

/-- One iteration of the interface loop (lines 269-303); interfaces are
never evicted. `totalUp`/`totalDown` sum the per-interface rates. -/
def processIface (ctx : PollCtx) (acc : IfaceAcc) (i : InterfaceStats) : IfaceAcc :=
  let found := alookup acc.ifaces i.name
  let tracker0 : IfaceTracker :=
    match found with
    | some t => t
    | Option.none => ⟨i.bytesSent, i.bytesRecv, EMA.new emaAlpha, EMA.new emaAlpha⟩
  let computed : Bool := !ctx.isFirstPoll && found.isSome
  let deltaSent := safeDelta i.bytesSent tracker0.prevBytesSent
  let deltaRecv := safeDelta i.bytesRecv tracker0.prevBytesRecv
  let upRate := if computed then (tracker0.upEMA.update ((deltaSent : ℚ) / ctx.dt)).2 else 0
  let downRate := if computed then (tracker0.downEMA.update ((deltaRecv : ℚ) / ctx.dt)).2 else 0
  let tracker1 :=
    if computed then
      { tracker0 with
        upEMA := (tracker0.upEMA.update ((deltaSent : ℚ) / ctx.dt)).1,
        downEMA := (tracker0.downEMA.update ((deltaRecv : ℚ) / ctx.dt)).1 }
    else tracker0
  let tracker2 := { tracker1 with prevBytesSent := i.bytesSent, prevBytesRecv := i.bytesRecv }
  { ifaces := aupsert acc.ifaces i.name tracker2,
    stats := acc.stats ++ [⟨i.name, i.bytesRecv, i.bytesSent, downRate, upRate⟩],
    totalUp := if computed then acc.totalUp + upRate else acc.totalUp,
    totalDown := if computed then acc.totalDown + downRate else acc.totalDown }

/-- The accumulator of the summary loop of `Collector.poll`. -/
structure SummAcc where
  procHistory : List (Nat × RingBuffer)
  activePIDs : List Nat
  processes : List ProcessSummary
deriving Repr

/-- One iteration of the summary loop (lines 308-347): push this poll's
total rate into the PID's ring buffer (created on first sight), read the
per-PID cumulative entry, the PPID and the cgroup classification, and
build the `ProcessSummary`. -/
def buildSummary (env : PollEnv) (cumByPID : List (Nat × ProcessCumulative))
    (acc : SummAcc) (entry : Nat × ProcData) : SummAcc :=
  let pid := entry.1
  let pd := entry.2
  let hist0 : RingBuffer :=
    match alookup acc.procHistory pid with
    | some h => h
    | Option.none => RingBuffer.newN 60
  let hist := hist0.push (pd.upRate + pd.downRate)
  let cums : Nat × Nat :=
    match alookup cumByPID pid with
    | some pc => (pc.bytesUp, pc.bytesDown)
    | Option.none => (0, 0)
  let cg := env.cgroupOf pid
  let ps : ProcessSummary := {
    pid := pid, ppid := env.ppidOf pid, name := pd.name, cmdline := pd.cmdline,
    upRate := pd.upRate, downRate := pd.downRate,
    connections := pd.conns, listenPorts := pd.listen,
    connCount := pd.conns.length, listenCount := pd.listen.length,
    cumUp := cums.1, cumDown := cums.2,
    containerID := cg.1, serviceName := cg.2,
    rateHistory := hist.samples }
  { procHistory := aupsert acc.procHistory pid hist,
    activePIDs := pid :: acc.activePIDs,
    processes := acc.processes ++ [ps] }

/-- The `hostAgg` record of the remote-host aggregation (lines 357-365).
`ip` is the map key (`conn.DstIP.String()`, which prints a 4-normalizable
address in dotted form — modelled by `ipKeyOf`); `rawIP` is the defensive
copy of the destination IP of the first connection seen for the key. -/
structure HostAgg where
  ip : IPAddr
  rawIP : IPAddr
  hostname : String
  upRate : ℚ
  downRate : ℚ
  connCount : Nat
  procNames : List String
deriving DecidableEq, Repr

/-- The map key `conn.DstIP.String()`: `net.IP.String` prints a 4-mappable
address in dotted-quad form, so such addresses coalesce with the 4-byte
form; distinct remaining values print distinct strings. -/
def ipKeyOf (ip : IPAddr) : IPAddr :=
  match ip.to4 with
  | some (a, b, c, d) => .v4 a b c d
  | Option.none => ip

/-- The `(process name, connection)` pairs visited by the nested remote-host
aggregation loops (lines 367-391), in bucket order. -/
def procConns : List (Nat × ProcData) → List (String × Connection)
  | [] => []
  | e :: rest => e.2.conns.map (fun c => (e.2.name, c)) ++ procConns rest

/-- One iteration of the remote-host aggregation: skip nil destinations,
create the `hostAgg` on first sight (capturing hostname and a copy of the
IP), accumulate rates and the connection count, and record the process
name (a Go map used as a set; names are deduplicated and later sorted). -/
def hostStep (hm : List (IPAddr × HostAgg)) (pc : String × Connection) :
    List (IPAddr × HostAgg) :=
  let conn := pc.2
  if conn.dstIP = .nil then hm
  else
    let key := ipKeyOf conn.dstIP
    let ha0 : HostAgg :=
      match alookup hm key with
      | some h => h
      | Option.none => ⟨key, conn.dstIP, conn.remoteHost, 0, 0, 0, []⟩
    let ha1 := { ha0 with upRate := ha0.upRate + conn.upRate,
                          downRate := ha0.downRate + conn.downRate,
                          connCount := ha0.connCount + 1 }
    let ha2 :=
      if pc.1 ≠ "" && !(decide (pc.1 ∈ ha1.procNames)) then
        { ha1 with procNames := ha1.procNames ++ [pc.1] }
      else ha1
    aupsert hm key ha2

/-- Lines 394-410: build one `RemoteHostSummary` from a `hostAgg` (process
names sorted as by `sort.Strings`, country via `geo.Lookup(...).Format()`). -/
def mkRemoteHost (e : IPAddr × HostAgg) : RemoteHostSummary :=
  let ha := e.2
  { host := ha.hostname, ip := ha.rawIP,
    country := (geoLookup ha.rawIP).format,
    upRate := ha.upRate, downRate := ha.downRate,
    connCount := ha.connCount,
    processes := ha.procNames.mergeSort (fun a b => decide (a ≤ b)) }

/-- The comparator of the remote-host `sort.Slice` (lines 413-416). -/
def rhLess (a b : RemoteHostSummary) : Bool :=
  decide (b.upRate + b.downRate < a.upRate + a.downRate)

/-- The total order used to realize the remote-host sort in this model:
`rhLe a b` iff `a` needn't come after `b` under `rhLess`. -/
def rhLe (a b : RemoteHostSummary) : Bool :=
  decide (b.upRate + b.downRate ≤ a.upRate + a.downRate)

/-- Lines 420-431: flatten all listen sockets into `ListenPortEntry`s. -/
def procListens : List (Nat × ProcData) → List ListenPortEntry
  | [] => []
  | e :: rest =>
    e.2.listen.map (fun lp => { proto := lp.proto, ip := lp.ip, port := lp.port,
                                pid := e.2.pid, process := e.2.name,
                                cmdline := e.2.cmdline }) ++ procListens rest

/-- The comparator of the listen-port `sort.Slice` (lines 433-438). -/
def lpLess (a b : ListenPortEntry) : Bool :=
  if a.port ≠ b.port then decide (a.port < b.port) else decide (a.proto.tag < b.proto.tag)

/-- The total order used to realize the listen-port sort in this model. -/
def lpLe (a b : ListenPortEntry) : Bool :=
  decide (a.port < b.port) || (a.port == b.port && decide (a.proto.tag ≤ b.proto.tag))

/-- The contract of Go `sort.Slice(x, less)`, which is documented as not
stable: the output is some permutation of the input sorted with respect to
`less`. Which permutation is not determined — tied elements may land in
either order (the input order itself comes from randomized Go map
iteration). The deterministic `poll` below realizes it via `mergeSort`. -/
def sortSliceSpec {α : Type} (less : α → α → Bool) (input output : List α) : Prop :=
  output.Perm input ∧ output.Pairwise (fun a b => less b a = false)

/-- Line 147-149 of `Collector.poll`: elapsed seconds since the previous
poll (the zero time when unset), clamped to 1 when nonpositive. -/
def pollDt (st : CollectorState) (now : ℚ) : ℚ :=
  let dtRaw := now - (match st.lastPoll with | some t => t | Option.none => 0)
  if dtRaw ≤ 0 then 1 else dtRaw

/-- Lines 147-152: `dt`, the first-poll flag (`lastPoll.IsZero`), and
`now`, as fixed at the top of `poll`. -/
def pollCtxOf (st : CollectorState) (now : ℚ) : PollCtx :=
  ⟨now, pollDt st now, st.lastPoll.isNone⟩

/-- `Collector.poll` (lines 136-467). `input = none` models a sampler
error (`platform.Collect` failed): the poll returns before touching any
state and emits nothing. Otherwise the phases run in source order:
socket loop, stale eviction, interface loop, summary loop (with history
cleanup), remote-host and listen-port aggregation, and snapshot assembly.
The publish step's drop-oldest channel mechanics are outside this model:
the produced snapshot is returned directly. -/
def poll (env : PollEnv) (st : CollectorState)
    (input : Option (List MappedSocket × List InterfaceStats)) (now : ℚ) :
    CollectorState × Option Snapshot :=
  match input with
  | Option.none => (st, Option.none)
  | some (sockets, ifaceSamples) =>
    let ctx : PollCtx := pollCtxOf st now
    let acc0 : SockAcc := ⟨st.sockets, [], st.totalCumUp, st.totalCumDown, st.cumByPID, []⟩
    let acc := sockets.foldl (processSocket env ctx) acc0
    let socks := evictStale now acc.activeKeys acc.sockets
    let ifAcc := ifaceSamples.foldl (processIface ctx) ⟨st.ifaces, [], 0, 0⟩
    let summ := acc.procs.foldl (buildSummary env acc.cumByPID) ⟨st.procHistory, [], []⟩
    let procHistory1 := summ.procHistory.filter (fun e => decide (e.1 ∈ summ.activePIDs))
    let hostMap := (procConns acc.procs).foldl hostStep []
    let remoteHosts := (hostMap.map mkRemoteHost).mergeSort rhLe
    let listenPorts := (procListens acc.procs).mergeSort lpLe
    let totalHistory := st.totalHistory.push (ifAcc.totalUp + ifAcc.totalDown)
    let snap : Snapshot := {
      timestamp := now, processes := summ.processes, interfaces := ifAcc.stats,
      remoteHosts := remoteHosts, listenPorts := listenPorts,
      totalUp := ifAcc.totalUp, totalDown := ifAcc.totalDown,
      totalRateHistory := totalHistory.samples }
    (⟨socks, ifAcc.ifaces, procHistory1, totalHistory, some now,
      acc.totalCumUp, acc.totalCumDown, acc.cumByPID⟩, some snap)

/-- One sampler result handed to a poll, with its wall time. -/
structure PollInput where
  input : Option (List MappedSocket × List InterfaceStats)
  now : ℚ

/-- A sequence of polls from a starting state: final state and the emitted
snapshots in order. -/
def runPolls (env : PollEnv) : CollectorState → List PollInput → CollectorState × List Snapshot
  | st, [] => (st, [])
  | st, i :: rest =>
    let r := poll env st i.input i.now
    let rr := runPolls env r.1 rest
    (rr.1, (match r.2 with | some s => [s] | Option.none => []) ++ rr.2)

/-- `Collector.CumulativeByPID` (lines 501-508). -/
def CumulativeByPID (st : CollectorState) (pid : Nat) : Nat × Nat :=
  match alookup st.cumByPID pid with
  | some pc => (pc.bytesUp, pc.bytesDown)
  | Option.none => (0, 0)


/-! ## Shared lemmas -/

theorem alookup_aupsert_self {κ β : Type} [DecidableEq κ]
    (m : List (κ × β)) (k : κ) (v : β) : alookup (aupsert m k v) k = some v := by
  induction m with
  | nil => simp [aupsert, alookup]
  | cons kv rest ih =>
    by_cases h : kv.1 = k
    · simp [aupsert, alookup, h]
    · simp [aupsert, alookup, h, ih]

theorem alookup_aupsert_ne {κ β : Type} [DecidableEq κ]
    (m : List (κ × β)) (k k' : κ) (v : β) (hne : k' ≠ k) :
    alookup (aupsert m k v) k' = alookup m k' := by
  have hne' : ¬ (k = k') := fun h => hne h.symm
  induction m with
  | nil => simp [aupsert, alookup, hne']
  | cons kv rest ih =>
    by_cases h : kv.1 = k
    · subst h
      simp [aupsert, alookup, hne']
    · by_cases h2 : kv.1 = k'
      · simp [aupsert, alookup, h, h2, hne]
      · simp [aupsert, alookup, h, h2, ih]

/-! ## C9: totality of `SocketState.String` -/

/-- C9: `SocketState.String` is total and never reads out of bounds: for
every state value it agrees with the safe "table entry or UNKNOWN" read,
and every value `≥ 12` (the table length) yields `"UNKNOWN"`. -/
theorem stateString_total (s : Nat) :
    stateString s = stateNames.getD s "UNKNOWN" ∧
    (12 ≤ s → stateString s = "UNKNOWN") := by
  have hlen : stateNames.length = 12 := rfl
  constructor
  · unfold stateString
    split
    · next h =>
      rw [List.getD_eq_getElem?_getD, List.getElem?_eq_getElem h]
      simp [List.get_eq_getElem]
    · next h =>
      rw [List.getD_eq_getElem?_getD, List.getElem?_eq_none (le_of_not_lt h)]
      rfl
  · intro h12
    have h : ¬ s < stateNames.length := by rw [hlen]; omega
    simp [stateString, h]

/-- Witness for C9 at the out-of-range values 12 and 255. -/
theorem stateString_total_witness :
    stateString 12 = "UNKNOWN" ∧ stateString 255 = "UNKNOWN" :=
  ⟨(stateString_total 12).2 (by decide), (stateString_total 255).2 (by decide)⟩

/-! ## C7: a sampler error skips the poll -/

/-- C7: when the sampler fails (`platform.Collect` returns an error), the
poll mutates nothing — socket trackers, interface trackers, history
buffers, cumulative totals and `lastPoll` are all unchanged — and no
snapshot is emitted. -/
theorem pollError_skips (env : PollEnv) (st : CollectorState) (now : ℚ) :
    (poll env st Option.none now).1.sockets = st.sockets ∧
    (poll env st Option.none now).1.ifaces = st.ifaces ∧
    (poll env st Option.none now).1.procHistory = st.procHistory ∧
    (poll env st Option.none now).1.totalHistory = st.totalHistory ∧
    (poll env st Option.none now).1.lastPoll = st.lastPoll ∧
    (poll env st Option.none now).1.totalCumUp = st.totalCumUp ∧
    (poll env st Option.none now).1.totalCumDown = st.totalCumDown ∧
    (poll env st Option.none now).1.cumByPID = st.cumByPID ∧
    (poll env st Option.none now).2 = Option.none := by
  simp [poll]

/-! ## C6: systemd service extraction from cgroup paths -/

/-- The qualifying-segment test of the service extraction: ends in
`.service` and does not start with `docker-`. -/
def qualSvc (seg : Str) : Bool :=
  endsWith seg svcSuffix && !startsWith seg dockerLead

/-- The rule as the spec words it: the LAST path segment ending in
`.service`, excluding `docker-`-led segments (empty when there is none).
Stated only to be compared against the source's `extractSystemdService`. -/
def specLastServiceSegment (cgPath : Str) : Str :=
  ((splitOnCh '/' cgPath).filter qualSvc).getLastD []

/-- C6 counterexample: on the cgroup content `0::/a.service/b.service` the
code extracts the FIRST qualifying segment, `a.service`, while the claim's
"last path segment ending in `.service`" is `b.service`. -/
theorem parseCgroup_not_last_service :
    (parseCgroup ("0::/a.service/b.service".toList)).serviceName = "a.service".toList ∧
    specLastServiceSegment ("/a.service/b.service".toList) = "b.service".toList ∧
    ("a.service".toList : Str) ≠ "b.service".toList := by decide

theorem serviceScan_eq_filter_head (segs : List Str) :
    serviceScan segs = (segs.filter qualSvc).headD [] := by
  induction segs with
  | nil => simp [serviceScan]
  | cons seg rest ih =>
    rw [List.filter_cons]
    by_cases hEnd : endsWith seg svcSuffix
    · by_cases hDoc : startsWith seg dockerLead
      · simp [serviceScan, qualSvc, hEnd, hDoc, ih]
      · simp [serviceScan, qualSvc, hEnd, hDoc]
    · simp [serviceScan, qualSvc, hEnd, ih]

/-- C6 amended: for every cgroup path, the extracted service name is the
FIRST segment ending in `.service` that does not start with `docker-`
(empty when there is none); in particular a path all of whose `.service`
segments start with `docker-` yields no service name. -/
theorem extractSystemdService_first (cgPath : Str) :
    extractSystemdService cgPath = ((splitOnCh '/' cgPath).filter qualSvc).headD [] ∧
    ((∀ seg ∈ splitOnCh '/' cgPath,
        endsWith seg svcSuffix = true → startsWith seg dockerLead = true) →
      extractSystemdService cgPath = []) := by
  refine ⟨serviceScan_eq_filter_head _, fun hAll => ?_⟩
  rw [extractSystemdService, serviceScan_eq_filter_head]
  have hnil : (splitOnCh '/' cgPath).filter qualSvc = [] := by
    rw [List.filter_eq_nil_iff]
    intro seg hseg
    by_cases hEnd : endsWith seg svcSuffix
    · have hDoc := hAll seg hseg hEnd
      simp [qualSvc, hEnd, hDoc]
    · simp [qualSvc, hEnd]
  rw [hnil]
  rfl

/-- Witness for C6 (amended) on the `docker-abc.service` test path. -/
theorem extractSystemdService_first_witness :
    extractSystemdService ("/system.slice/docker-abc.service".toList) = [] :=
  (extractSystemdService_first _).2 (by decide)


/-! ## C8: geolocation lookup -/

theorem bmFoldl_eq_none (n : Nat) (rs : List IpRange) :
    ∀ acc : Option IpRange, rs.foldl (bmStep n) acc = Option.none ↔
      (acc = Option.none ∧ ∀ r ∈ rs, r.containsNum n = false) := by
  induction rs with
  | nil => intro acc; simp
  | cons r rest ih =>
    intro acc
    rw [List.foldl_cons, ih]
    by_cases hc : r.containsNum n
    · constructor
      · rintro ⟨hstep, _⟩
        exfalso
        cases acc with
        | none => simp [bmStep, hc] at hstep
        | some a => simp [bmStep, hc] at hstep; split at hstep <;> simp_all
      · rintro ⟨_, hall⟩
        exact absurd hc (by simp [hall r (by simp)])
    · have hstep : bmStep n acc r = acc := by simp [bmStep, hc]
      rw [hstep]
      simp only [List.mem_cons]
      constructor
      · rintro ⟨ha, hall⟩
        exact ⟨ha, fun q hq => hq.elim (fun h => h ▸ eq_false_of_ne_true (by simp [hc])) (hall q)⟩
      · rintro ⟨ha, hall⟩
        exact ⟨ha, fun q hq => hall q (Or.inr hq)⟩

theorem bmFoldl_mem (n : Nat) (rs : List IpRange) :
    ∀ (acc : Option IpRange) (b : IpRange), rs.foldl (bmStep n) acc = some b →
      acc = some b ∨ b ∈ rs := by
  induction rs with
  | nil => intro acc b h; simp at h; simp [h]
  | cons r rest ih =>
    intro acc b h
    rw [List.foldl_cons] at h
    rcases ih (bmStep n acc r) b h with hstep | hmem
    · by_cases hc : r.containsNum n
      · cases acc with
        | none =>
          simp [bmStep, hc] at hstep
          simp [hstep]
        | some a =>
          simp only [bmStep, hc, if_true] at hstep
          split at hstep
          · simp at hstep; simp [hstep]
          · simp at hstep; simp [hstep]
      · simp [bmStep, hc] at hstep
        simp [hstep]
    · simp [hmem]

theorem bmFoldl_contains (n : Nat) (rs : List IpRange) :
    ∀ (acc : Option IpRange) (b : IpRange),
      (∀ x, acc = some x → x.containsNum n = true) →
      rs.foldl (bmStep n) acc = some b → b.containsNum n = true := by
  induction rs with
  | nil => intro acc b hacc h; simp at h; exact hacc b h
  | cons r rest ih =>
    intro acc b hacc h
    rw [List.foldl_cons] at h
    refine ih (bmStep n acc r) b ?_ h
    intro x hx
    by_cases hc : r.containsNum n
    · cases acc with
      | none => simp [bmStep, hc] at hx; exact hx ▸ hc
      | some a =>
        simp only [bmStep, hc, if_true] at hx
        split at hx
        · simp at hx; exact hx ▸ hc
        · simp at hx; exact hx ▸ hacc a rfl
    · simp [bmStep, hc] at hx
      exact hacc x hx

theorem bmFoldl_minimal (n : Nat) (rs : List IpRange) :
    ∀ (acc : Option IpRange) (b : IpRange),
      rs.foldl (bmStep n) acc = some b →
      (∀ q, acc = some q → b.span ≤ q.span) ∧
      (∀ q ∈ rs, q.containsNum n = true → b.span ≤ q.span) := by
  induction rs with
  | nil =>
    intro acc b h
    simp at h
    exact ⟨fun q hq => by rw [h] at hq; simp at hq; simp [hq], by simp⟩
  | cons r rest ih =>
    intro acc b h
    rw [List.foldl_cons] at h
    obtain ⟨hacc', hrest⟩ := ih (bmStep n acc r) b h
    by_cases hc : r.containsNum n
    · have hstepR : ∀ a, acc = some a →
          (bmStep n acc r = some r ∧ r.span ≤ a.span) ∨ bmStep n acc r = some a := by
        intro a ha
        subst ha
        simp only [bmStep, hc, if_true]
        by_cases hsp : r.span < a.span
        · exact Or.inl ⟨by simp [hsp], le_of_lt hsp⟩
        · exact Or.inr (by simp [hsp])
      have hbr : b.span ≤ r.span := by
        cases acc with
        | none => exact hacc' r (by simp [bmStep, hc])
        | some a =>
          rcases hstepR a rfl with ⟨heq, _⟩ | heq
          · exact hacc' r heq
          · by_cases hsp : r.span < a.span
            · exfalso
              simp only [bmStep, hc, if_true, hsp, if_true] at heq
              simp at heq
              subst heq
              exact absurd hsp (lt_irrefl _)
            · push_neg at hsp
              exact le_trans (hacc' a heq) hsp
      refine ⟨?_, ?_⟩
      · intro q hq
        rcases hstepR q hq with ⟨heq, hle⟩ | heq
        · exact le_trans (hacc' r heq) hle
        · exact hacc' q heq
      · intro q hq hqc
        rcases List.mem_cons.mp hq with hq | hq
        · exact hq ▸ hbr
        · exact hrest q hq hqc
    · have hstep : bmStep n acc r = acc := by simp [bmStep, hc]
      rw [hstep] at hacc'
      refine ⟨hacc', fun q hq hqc => ?_⟩
      rcases List.mem_cons.mp hq with hq | hq
      · exact absurd hqc (by simp [hq ▸ hc])
      · exact hrest q hq hqc

/-- C8: for an IPv4 address that is neither private nor loopback nor
multicast, `geo.Lookup` returns the country of a containing range whose
span is minimal among all containing ranges (so when two ranges contain
the same address the smaller span wins), and the empty country when no
range contains it; an address that is not 4-normalizable (genuine IPv6)
always yields the empty country. -/
theorem geoLookup_best_range (a b c d : Nat)
    (hp : isPrivate4 a b = false) (hl : isLoopback4 a = false)
    (hm : isMulticast4 a = false) :
    (∀ bs, (IPAddr.v6 bs).to4 = Option.none → geoLookup (.v6 bs) = ⟨"", ""⟩) ∧
    ((∀ r ∈ ipRanges, r.containsNum (ipToU32 a b c d) = false) →
      geoLookup (.v4 a b c d) = ⟨"", ""⟩) ∧
    (∀ r₀ ∈ ipRanges, r₀.containsNum (ipToU32 a b c d) = true →
      ∃ r ∈ ipRanges, r.containsNum (ipToU32 a b c d) = true ∧
        geoLookup (.v4 a b c d) = ⟨r.country, countryFlag r.country⟩ ∧
        ∀ q ∈ ipRanges, q.containsNum (ipToU32 a b c d) = true → r.span ≤ q.span) := by
  refine ⟨fun bs hto4 => by simp [geoLookup, hto4], fun hnone => ?_, fun r₀ hr₀ hc₀ => ?_⟩
  · have : bestMatchFold ipRanges (ipToU32 a b c d) = Option.none := by
      rw [bestMatchFold, bmFoldl_eq_none]
      exact ⟨rfl, hnone⟩
    simp [geoLookup, IPAddr.to4, hp, hl, hm, this]
  · have hne : bestMatchFold ipRanges (ipToU32 a b c d) ≠ Option.none := by
      rw [bestMatchFold, Ne, bmFoldl_eq_none]
      rintro ⟨_, hall⟩
      exact absurd (hall r₀ hr₀) (by simp [hc₀])
    obtain ⟨r, hr⟩ := Option.ne_none_iff_exists'.mp hne
    refine ⟨r, ?_, ?_, ?_, ?_⟩
    · rcases bmFoldl_mem _ _ _ _ hr with h | h
      · exact absurd h (by simp)
      · exact h
    · exact bmFoldl_contains _ _ _ _ (by simp) hr
    · simp [geoLookup, IPAddr.to4, hp, hl, hm, hr]
    · exact (bmFoldl_minimal _ _ _ _ hr).2

set_option maxRecDepth 8000 in
/-- Witness for C8: 9.0.0.0 is in no range of the table and maps to the
empty country. -/
theorem geoLookup_best_range_witness : geoLookup (.v4 9 0 0 0) = ⟨"", ""⟩ :=
  (geoLookup_best_range 9 0 0 0 (by decide) (by decide) (by decide)).2.1 (by decide)


/-! ## C5: ordering of remote hosts and listen ports -/

theorem rhLe_trans (x y z : RemoteHostSummary) :
    rhLe x y → rhLe y z → rhLe x z := by
  simp only [rhLe, decide_eq_true_eq]
  exact fun h1 h2 => le_trans h2 h1

theorem rhLe_total (x y : RemoteHostSummary) : rhLe x y || rhLe y x := by
  simp only [rhLe, Bool.or_eq_true, decide_eq_true_eq]
  exact le_total _ _

theorem lpLe_trans (x y z : ListenPortEntry) :
    lpLe x y → lpLe y z → lpLe x z := by
  simp only [lpLe, Bool.or_eq_true, Bool.and_eq_true, beq_iff_eq, decide_eq_true_eq]
  omega

theorem lpLe_total (x y : ListenPortEntry) : lpLe x y || lpLe y x := by
  simp only [lpLe, Bool.or_eq_true, Bool.and_eq_true, beq_iff_eq, decide_eq_true_eq]
  omega

/-- C5 amended: every emitted snapshot has `remote_hosts` sorted by
descending total rate (`up_rate + down_rate`) and `listen_ports` sorted by
port ascending with protocol tag ascending as secondary key. (The order of
remote hosts with EQUAL total rates is not part of this statement: the
source sorts with `sort.Slice`, which guarantees no stable tie-break —
see the counterexample.) -/
theorem snapshot_ordering (env : PollEnv) (st : CollectorState)
    (batch : List MappedSocket) (ifs : List InterfaceStats) (now : ℚ) :
    ∀ snap, (poll env st (some (batch, ifs)) now).2 = some snap →
      snap.remoteHosts.Pairwise
        (fun x y => y.upRate + y.downRate ≤ x.upRate + x.downRate) ∧
      snap.listenPorts.Pairwise
        (fun x y => x.port < y.port ∨ (x.port = y.port ∧ x.proto.tag ≤ y.proto.tag)) := by
  intro snap h
  simp only [poll, Option.some.injEq] at h
  subst h
  constructor
  · have hs := @List.sorted_mergeSort RemoteHostSummary rhLe
      (fun a b c => rhLe_trans a b c) (fun a b => rhLe_total a b)
      (((procConns ((batch.foldl (processSocket env (pollCtxOf st now))
        ⟨st.sockets, [], st.totalCumUp, st.totalCumDown, st.cumByPID, []⟩).procs)).foldl
          hostStep []).map mkRemoteHost)
    refine List.Pairwise.imp ?_ hs
    intro a b hab
    simpa [rhLe, decide_eq_true_eq] using hab
  · have hs := @List.sorted_mergeSort ListenPortEntry lpLe
      (fun a b c => lpLe_trans a b c) (fun a b => lpLe_total a b)
      (procListens ((batch.foldl (processSocket env (pollCtxOf st now))
        ⟨st.sockets, [], st.totalCumUp, st.totalCumDown, st.cumByPID, []⟩).procs))
    refine List.Pairwise.imp ?_ hs
    intro a b hab
    simpa [lpLe, Bool.or_eq_true, Bool.and_eq_true, beq_iff_eq, decide_eq_true_eq] using hab

/-- Witness for C5 (amended) on a one-socket poll from the initial state. -/
theorem snapshot_ordering_witness :
    ((poll ⟨fun _ => 0, fun _ => ([], []), fun _ => ""⟩ initialState
        (some ([], [])) 1).2.map
      (fun snap => snap.remoteHosts.Pairwise
        (fun x y => y.upRate + y.downRate ≤ x.upRate + x.downRate))).getD False :=
  match hsnap : (poll ⟨fun _ => 0, fun _ => ([], []), fun _ => ""⟩ initialState
      (some ([], [])) 1).2 with
  | Option.none => by simp [poll] at hsnap
  | some snap => by
    simpa using (snapshot_ordering _ _ _ _ _ snap hsnap).1

/-- Two remote hosts with equal total rate but different identities. -/
def rhTieA : RemoteHostSummary := ⟨"", .v4 1 0 0 1, "", 1, 0, 1, []⟩

def rhTieB : RemoteHostSummary := ⟨"", .v4 2 0 0 2, "", 0, 1, 1, []⟩

/-- C5 counterexample (to the "stable tie-break" part): for a concrete
input with two tied remote hosts, BOTH orders satisfy the contract of the
source's sorting step (`sort.Slice` with the rate comparator — an
explicitly unstable sort, fed from a randomized map iteration), so the
code does not guarantee any stable tie-break. -/
theorem remoteHosts_tie_order_not_determined :
    sortSliceSpec rhLess [rhTieA, rhTieB] [rhTieA, rhTieB] ∧
    sortSliceSpec rhLess [rhTieA, rhTieB] [rhTieB, rhTieA] ∧
    [rhTieA, rhTieB] ≠ [rhTieB, rhTieA] := by
  refine ⟨⟨List.Perm.refl _, ?_⟩, ⟨List.Perm.swap _ _ _, ?_⟩, ?_⟩
  · simp [List.pairwise_cons, rhLess, rhTieA, rhTieB]
  · simp [List.pairwise_cons, rhLess, rhTieA, rhTieB]
  · intro hEq
    have hhd := congrArg (fun l => l.headD rhTieA) hEq
    simp [rhTieA, rhTieB] at hhd


/-! ## C4: first-poll quiescence -/

/-- A per-process bucket carrying only zero rates. -/
def ZeroPD (pd : ProcData) : Prop :=
  pd.upRate = 0 ∧ pd.downRate = 0 ∧ ∀ c ∈ pd.conns, c.upRate = 0 ∧ c.downRate = 0

theorem socketRates_first (ctx : PollCtx) (m : List (SocketKey × SocketTracker))
    (s : MappedSocket) (hf : ctx.isFirstPoll = true) : socketRates ctx m s = (0, 0) := by
  unfold socketRates
  cases alookup m (makeSocketKey s) <;> simp [hf]

theorem updateProc_forall {P : ProcData → Prop} (pid : Nat) (nm cm : String)
    (f : ProcData → ProcData) :
    ∀ procs, (∀ e ∈ procs, P e.2) → (∀ pd, P pd → P (f pd)) →
      P (f (newProcData pid nm cm)) →
      ∀ e ∈ updateProc procs pid nm cm f, P e.2 := by
  intro procs
  induction procs with
  | nil =>
    intro _ _ hnew e he
    simp [updateProc] at he
    simp [he, hnew]
  | cons kv rest ih =>
    intro hall hf2 hnew e he
    by_cases h : kv.1 = pid
    · simp only [updateProc, h, if_true, List.mem_cons] at he
      rcases he with he | he
      · simp [he]
        exact hf2 kv.2 (hall kv (by simp))
      · exact hall e (by simp [he])
    · simp only [updateProc, h, if_false, List.mem_cons] at he
      rcases he with he | he
      · exact hall e (by simp [he])
      · exact ih (fun e2 he2 => hall e2 (by simp [he2])) hf2 hnew e he

theorem processSocket_first (env : PollEnv) (ctx : PollCtx) (acc : SockAcc)
    (s : MappedSocket) (hf : ctx.isFirstPoll = true) :
    (processSocket env ctx acc s).totalCumUp = acc.totalCumUp ∧
    (processSocket env ctx acc s).totalCumDown = acc.totalCumDown ∧
    (processSocket env ctx acc s).cumByPID = acc.cumByPID ∧
    ((∀ e ∈ acc.procs, ZeroPD e.2) →
      ∀ e ∈ (processSocket env ctx acc s).procs, ZeroPD e.2) := by
  have hrates := socketRates_first ctx acc.sockets s hf
  refine ⟨?_, ?_, ?_, ?_⟩
  · simp [processSocket, hf]
  · simp [processSocket, hf]
  · simp [processSocket, hf]
  · intro hall
    simp only [processSocket, hf, Bool.not_true, Bool.false_and, if_false, hrates]
    by_cases hls : s.state = stateListen
    · simp only [hls, if_true]
      refine updateProc_forall _ _ _ _ _ hall ?_ ?_
      · rintro pd ⟨h1, h2, h3⟩
        exact ⟨by simp [h1], by simp [h2], by simpa using h3⟩
      · exact ⟨by simp [newProcData], by simp [newProcData], by simp [newProcData]⟩
    · simp only [hls, if_false]
      refine updateProc_forall _ _ _ _ _ hall ?_ ?_
      · rintro pd ⟨h1, h2, h3⟩
        refine ⟨by simp [h1], by simp [h2], ?_⟩
        intro cn hcn
        rcases List.mem_append.mp hcn with hcn | hcn
        · exact h3 cn hcn
        · simp at hcn
          simp [hcn]
      · refine ⟨by simp [newProcData], by simp [newProcData], ?_⟩
        intro cn hcn
        simp [newProcData] at hcn
        simp [hcn]

theorem sockFold_first (env : PollEnv) (ctx : PollCtx) (hf : ctx.isFirstPoll = true) :
    ∀ (batch : List MappedSocket) (acc : SockAcc),
      (∀ e ∈ acc.procs, ZeroPD e.2) →
      ((batch.foldl (processSocket env ctx) acc).totalCumUp = acc.totalCumUp ∧
       (batch.foldl (processSocket env ctx) acc).totalCumDown = acc.totalCumDown ∧
       (batch.foldl (processSocket env ctx) acc).cumByPID = acc.cumByPID ∧
       ∀ e ∈ (batch.foldl (processSocket env ctx) acc).procs, ZeroPD e.2) := by
  intro batch
  induction batch with
  | nil => intro acc h; simp only [List.foldl_nil]; exact ⟨trivial, trivial, trivial, h⟩
  | cons s rest ih =>
    intro acc h
    rw [List.foldl_cons]
    obtain ⟨h1, h2, h3, h4⟩ := processSocket_first env ctx acc s hf
    obtain ⟨g1, g2, g3, g4⟩ := ih (processSocket env ctx acc s) (h4 h)
    exact ⟨g1.trans h1, g2.trans h2, g3.trans h3, g4⟩

theorem processIface_first (ctx : PollCtx) (acc : IfaceAcc) (i : InterfaceStats)
    (hf : ctx.isFirstPoll = true) :
    (processIface ctx acc i).totalUp = acc.totalUp ∧
    (processIface ctx acc i).totalDown = acc.totalDown ∧
    ((∀ e ∈ acc.stats, e.recvRate = 0 ∧ e.sendRate = 0) →
      ∀ e ∈ (processIface ctx acc i).stats, e.recvRate = 0 ∧ e.sendRate = 0) := by
  refine ⟨by simp [processIface, hf], by simp [processIface, hf], ?_⟩
  intro hall e he
  simp only [processIface, hf, Bool.not_true, Bool.false_and, if_false] at he
  rcases List.mem_append.mp he with he | he
  · exact hall e he
  · simp at he
    simp [he]

theorem ifaceFold_first (ctx : PollCtx) (hf : ctx.isFirstPoll = true) :
    ∀ (ifs : List InterfaceStats) (acc : IfaceAcc),
      (∀ e ∈ acc.stats, e.recvRate = 0 ∧ e.sendRate = 0) →
      ((ifs.foldl (processIface ctx) acc).totalUp = acc.totalUp ∧
       (ifs.foldl (processIface ctx) acc).totalDown = acc.totalDown ∧
       ∀ e ∈ (ifs.foldl (processIface ctx) acc).stats, e.recvRate = 0 ∧ e.sendRate = 0) := by
  intro ifs
  induction ifs with
  | nil => intro acc h; simp only [List.foldl_nil]; exact ⟨trivial, trivial, h⟩
  | cons i rest ih =>
    intro acc h
    rw [List.foldl_cons]
    obtain ⟨h1, h2, h3⟩ := processIface_first ctx acc i hf
    obtain ⟨g1, g2, g3⟩ := ih (processIface ctx acc i) (h3 h)
    exact ⟨g1.trans h1, g2.trans h2, g3⟩

/-- A process summary carrying only zero rates and zero cumulatives. -/
def PSummaryZero (p : ProcessSummary) : Prop :=
  p.upRate = 0 ∧ p.downRate = 0 ∧ p.cumUp = 0 ∧ p.cumDown = 0 ∧
  ∀ c ∈ p.connections, c.upRate = 0 ∧ c.downRate = 0

theorem summFold_zero (env : PollEnv) :
    ∀ (procs : List (Nat × ProcData)) (acc : SummAcc),
      (∀ e ∈ procs, ZeroPD e.2) →
      (∀ p ∈ acc.processes, PSummaryZero p) →
      ∀ p ∈ (procs.foldl (buildSummary env []) acc).processes, PSummaryZero p := by
  intro procs
  induction procs with
  | nil => intro acc _ h; simpa using h
  | cons e rest ih =>
    intro acc hall hacc
    rw [List.foldl_cons]
    refine ih (buildSummary env [] acc e) (fun e2 he2 => hall e2 (by simp [he2])) ?_
    intro p hp
    simp only [buildSummary, alookup, List.mem_append] at hp
    rcases hp with hp | hp
    · exact hacc p hp
    · obtain ⟨h1, h2, h3⟩ := hall e (by simp)
      simp at hp
      subst hp
      exact ⟨h1, h2, rfl, rfl, h3⟩

/-- C4: on the very first poll of a fresh collector, every reported rate is
zero — per connection, per process (with zero per-PID cumulatives), per
interface, and the totals — and nothing is added to the session cumulative
totals or to the per-PID cumulative table. -/
theorem first_poll_quiescent (env : PollEnv) (batch : List MappedSocket)
    (ifs : List InterfaceStats) (now : ℚ) :
    ∀ snap, (poll env initialState (some (batch, ifs)) now).2 = some snap →
      ((∀ p ∈ snap.processes, p.upRate = 0 ∧ p.downRate = 0 ∧ p.cumUp = 0 ∧ p.cumDown = 0 ∧
          ∀ c ∈ p.connections, c.upRate = 0 ∧ c.downRate = 0) ∧
       (∀ i ∈ snap.interfaces, i.recvRate = 0 ∧ i.sendRate = 0) ∧
       snap.totalUp = 0 ∧ snap.totalDown = 0 ∧
       (poll env initialState (some (batch, ifs)) now).1.totalCumUp = 0 ∧
       (poll env initialState (some (batch, ifs)) now).1.totalCumDown = 0 ∧
       (poll env initialState (some (batch, ifs)) now).1.cumByPID = []) := by
  intro snap h
  have hf : (pollCtxOf initialState now).isFirstPoll = true := rfl
  have hsock := sockFold_first env (pollCtxOf initialState now) hf batch
    ⟨initialState.sockets, [], initialState.totalCumUp, initialState.totalCumDown,
     initialState.cumByPID, []⟩ (by simp)
  obtain ⟨hs1, hs2, hs3, hs4⟩ := hsock
  have hif := ifaceFold_first (pollCtxOf initialState now) hf ifs
    ⟨initialState.ifaces, [], 0, 0⟩ (by simp)
  obtain ⟨hi1, hi2, hi3⟩ := hif
  simp only [poll, Option.some.injEq] at h
  have hcum : (batch.foldl (processSocket env (pollCtxOf initialState now))
      ⟨initialState.sockets, [], initialState.totalCumUp, initialState.totalCumDown,
       initialState.cumByPID, []⟩).cumByPID = [] := by
    rw [hs3]
    rfl
  subst h
  refine ⟨?_, ?_, ?_, ?_, ?_, ?_, ?_⟩
  · intro p hp
    rw [hcum] at hp
    exact summFold_zero env _ ⟨initialState.procHistory, [], []⟩ hs4 (by simp) p hp
  · intro i hi
    exact hi3 i hi
  · simpa using hi1
  · simpa using hi2
  · simpa using hs1
  · simpa using hs2
  · exact hcum

/-- Witness for C4 on a concrete one-socket, one-interface first poll. -/
theorem first_poll_quiescent_witness :
    ((poll ⟨fun _ => 0, fun _ => ([], []), fun _ => ""⟩ initialState
        (some ([⟨.tcp, .v4 10 0 0 1, 10, .v4 8 8 8 8, 443, 1, 7, 500, 600, 42, "p", "p -x"⟩],
               [⟨"eth0", 100, 200, 0, 0⟩])) 3).2.map
      (fun snap => snap.totalUp = 0 ∧ snap.totalDown = 0)).getD False :=
  match hsnap : (poll ⟨fun _ => 0, fun _ => ([], []), fun _ => ""⟩ initialState
      (some ([⟨.tcp, .v4 10 0 0 1, 10, .v4 8 8 8 8, 443, 1, 7, 500, 600, 42, "p", "p -x"⟩],
             [⟨"eth0", 100, 200, 0, 0⟩])) 3).2 with
  | Option.none => by simp [poll] at hsnap
  | some snap => by
    have := first_poll_quiescent _ _ _ _ snap hsnap
    simpa using ⟨this.2.2.1, this.2.2.2.1⟩


/-! ## C3: stale-tracker eviction -/

/-- A Go map modelled as an association list has no duplicate keys. -/
def KeysNodup {κ β : Type} (m : List (κ × β)) : Prop :=
  (m.map Prod.fst).Nodup

theorem mem_keys_aupsert {κ β : Type} [DecidableEq κ]
    (m : List (κ × β)) (k x : κ) (v : β) :
    x ∈ (aupsert m k v).map Prod.fst ↔ x = k ∨ x ∈ m.map Prod.fst := by
  induction m with
  | nil => simp [aupsert]
  | cons kv rest ih =>
    by_cases h : kv.1 = k
    · simp [aupsert, h]
    · simp only [aupsert, h, if_false, List.map_cons, List.mem_cons, ih]
      tauto

theorem aupsert_keysNodup {κ β : Type} [DecidableEq κ]
    (m : List (κ × β)) (k : κ) (v : β) (hnd : KeysNodup m) :
    KeysNodup (aupsert m k v) := by
  induction m with
  | nil => simp [aupsert, KeysNodup]
  | cons kv rest ih =>
    obtain ⟨hhd, htl⟩ := List.nodup_cons.mp hnd
    by_cases h : kv.1 = k
    · have hres : aupsert (kv :: rest) k v = (k, v) :: rest := by simp [aupsert, h]
      rw [hres]
      unfold KeysNodup
      rw [List.map_cons]
      exact List.nodup_cons.mpr ⟨h ▸ hhd, htl⟩
    · have hres : aupsert (kv :: rest) k v = kv :: aupsert rest k v := by simp [aupsert, h]
      rw [hres]
      unfold KeysNodup
      rw [List.map_cons]
      refine List.nodup_cons.mpr ⟨?_, ih htl⟩
      rw [mem_keys_aupsert]
      rintro (heq | hmem)
      · exact h heq
      · exact hhd hmem

theorem filter_keysNodup {κ β : Type} (m : List (κ × β)) (p : κ × β → Bool)
    (hnd : KeysNodup m) : KeysNodup (m.filter p) := by
  have hsub : List.Sublist ((m.filter p).map Prod.fst) (m.map Prod.fst) :=
    List.Sublist.map Prod.fst (List.filter_sublist m)
  exact List.Nodup.sublist hsub hnd

theorem alookup_eq_none_iff {κ β : Type} [DecidableEq κ] (m : List (κ × β)) (k : κ) :
    alookup m k = Option.none ↔ k ∉ m.map Prod.fst := by
  induction m with
  | nil => simp [alookup]
  | cons kv rest ih =>
    by_cases h : kv.1 = k
    · simp [alookup, h]
    · rw [show alookup (kv :: rest) k = alookup rest k from by simp [alookup, h], ih]
      simp only [List.map_cons, List.mem_cons]
      constructor
      · intro hk hor
        rcases hor with hor | hor
        · exact h hor.symm
        · exact hk hor
      · intro hk hmem
        exact hk (Or.inr hmem)

theorem alookup_filter_none {κ β : Type} [DecidableEq κ]
    (m : List (κ × β)) (k : κ) (p : κ × β → Bool) (h : alookup m k = Option.none) :
    alookup (m.filter p) k = Option.none := by
  rw [alookup_eq_none_iff] at h ⊢
  intro hmem
  refine h ?_
  obtain ⟨e, he, heq⟩ := List.mem_map.mp hmem
  exact List.mem_map.mpr ⟨e, (List.mem_filter.mp he).1, heq⟩

theorem alookup_filter_of_nodup {κ β : Type} [DecidableEq κ]
    (m : List (κ × β)) (k : κ) (v : β) (p : κ × β → Bool)
    (hnd : KeysNodup m) (hfound : alookup m k = some v) :
    alookup (m.filter p) k = if p (k, v) then some v else Option.none := by
  induction m with
  | nil => simp [alookup] at hfound
  | cons kv rest ih =>
    obtain ⟨hhd, htl⟩ := List.nodup_cons.mp hnd
    by_cases h : kv.1 = k
    · simp only [alookup, h, if_true, Option.some.injEq] at hfound
      have hrest : alookup rest k = Option.none := by
        rw [alookup_eq_none_iff]
        exact h ▸ hhd
      have hkv : kv = (k, v) := by
        obtain ⟨a, b⟩ := kv
        simp only at h hfound
        simp [h, hfound]
      subst hkv
      by_cases hp : p (k, v)
      · simp [List.filter_cons, hp, alookup]
      · rw [List.filter_cons, if_neg (by simp [hp]), if_neg (by simp [hp])]
        exact alookup_filter_none rest k p hrest
    · have hfound' : alookup rest k = some v := by
        simpa [alookup, h] using hfound
      rw [List.filter_cons]
      by_cases hp : p kv = true
      · rw [if_pos hp]
        rw [show alookup (kv :: rest.filter p) k = alookup (rest.filter p) k from by
          simp [alookup, h]]
        exact ih htl hfound'
      · rw [if_neg hp]
        exact ih htl hfound'

/-- The socket loop writes only the keys of the sockets it processes. -/
theorem alookup_sockFold_other (env : PollEnv) (ctx : PollCtx) :
    ∀ (batch : List MappedSocket) (acc : SockAcc) (K : SocketKey),
      (∀ s ∈ batch, makeSocketKey s ≠ K) →
      alookup (batch.foldl (processSocket env ctx) acc).sockets K = alookup acc.sockets K := by
  intro batch
  induction batch with
  | nil => intro acc K _; rfl
  | cons s rest ih =>
    intro acc K hK
    rw [List.foldl_cons, ih _ K (fun s2 h2 => hK s2 (by simp [h2]))]
    show alookup (aupsert acc.sockets (makeSocketKey s) _) K = _
    exact alookup_aupsert_ne _ _ _ _ (fun h => hK s (by simp) h.symm)

theorem sockFold_keysNodup (env : PollEnv) (ctx : PollCtx) :
    ∀ (batch : List MappedSocket) (acc : SockAcc),
      KeysNodup acc.sockets →
      KeysNodup (batch.foldl (processSocket env ctx) acc).sockets := by
  intro batch
  induction batch with
  | nil => intro acc h; exact h
  | cons s rest ih =>
    intro acc h
    rw [List.foldl_cons]
    exact ih _ (aupsert_keysNodup _ _ _ h)

theorem mem_sockFold_activeKeys (env : PollEnv) (ctx : PollCtx) :
    ∀ (batch : List MappedSocket) (acc : SockAcc) (K : SocketKey),
      K ∈ (batch.foldl (processSocket env ctx) acc).activeKeys ↔
        (∃ s ∈ batch, makeSocketKey s = K) ∨ K ∈ acc.activeKeys := by
  intro batch
  induction batch with
  | nil => intro acc K; simp
  | cons s rest ih =>
    intro acc K
    rw [List.foldl_cons, ih]
    have hstep : (processSocket env ctx acc s).activeKeys
        = makeSocketKey s :: acc.activeKeys := rfl
    rw [hstep]
    simp only [List.mem_cons]
    constructor
    · rintro (⟨s2, h2, h3⟩ | h | h)
      · exact Or.inl ⟨s2, by simp [h2], h3⟩
      · exact Or.inl ⟨s, by simp, h.symm⟩
      · exact Or.inr h
    · rintro (⟨s2, h2, h3⟩ | h)
      · rcases h2 with h2 | h2
        · subst h2
          exact Or.inr (Or.inl h3.symm)
        · exact Or.inl ⟨s2, h2, h3⟩
      · exact Or.inr (Or.inr h)

/-- A successful poll that does not observe key `K`: the tracker for `K` is
kept exactly when its `lastSeen` is within the 30-second window of the
poll's wall time (the comparison is strict), and is otherwise deleted. -/
theorem poll_tracker_unobserved (env : PollEnv) (st : CollectorState)
    (batch : List MappedSocket) (ifs : List InterfaceStats) (now : ℚ)
    (K : SocketKey) (tr : SocketTracker)
    (hnd : KeysNodup st.sockets)
    (hK : ∀ s ∈ batch, makeSocketKey s ≠ K)
    (hfound : alookup st.sockets K = some tr) :
    alookup (poll env st (some (batch, ifs)) now).1.sockets K
      = if tr.lastSeen < now - 30 then Option.none else some tr := by
  have hacc0 : alookup (batch.foldl (processSocket env (pollCtxOf st now))
      ⟨st.sockets, [], st.totalCumUp, st.totalCumDown, st.cumByPID, []⟩).sockets K
      = some tr := by
    rw [alookup_sockFold_other env _ batch _ K hK]
    exact hfound
  have hnd' := sockFold_keysNodup env (pollCtxOf st now) batch
    ⟨st.sockets, [], st.totalCumUp, st.totalCumDown, st.cumByPID, []⟩ hnd
  have hactive : K ∉ (batch.foldl (processSocket env (pollCtxOf st now))
      ⟨st.sockets, [], st.totalCumUp, st.totalCumDown, st.cumByPID, []⟩).activeKeys := by
    rw [mem_sockFold_activeKeys]
    rintro (⟨s, hs, hk⟩ | h)
    · exact hK s hs hk
    · simp at h
  show alookup (evictStale now _ _) K = _
  unfold evictStale
  rw [alookup_filter_of_nodup _ _ tr _ hnd' hacc0]
  by_cases hev : tr.lastSeen < now - 30 <;> simp [hactive, hev]

/-- A successful poll that does not observe key `K` never creates a tracker
for it. -/
theorem poll_tracker_absent (env : PollEnv) (st : CollectorState)
    (batch : List MappedSocket) (ifs : List InterfaceStats) (now : ℚ) (K : SocketKey)
    (hK : ∀ s ∈ batch, makeSocketKey s ≠ K)
    (hnone : alookup st.sockets K = Option.none) :
    alookup (poll env st (some (batch, ifs)) now).1.sockets K = Option.none := by
  have hacc0 : alookup (batch.foldl (processSocket env (pollCtxOf st now))
      ⟨st.sockets, [], st.totalCumUp, st.totalCumDown, st.cumByPID, []⟩).sockets K
      = Option.none := by
    rw [alookup_sockFold_other env _ batch _ K hK]
    exact hnone
  exact alookup_filter_none _ _ _ hacc0

theorem runPolls_absent (env : PollEnv) :
    ∀ (inputs : List PollInput) (st : CollectorState) (K : SocketKey),
      (∀ i ∈ inputs, ∃ b f, i.input = some (b, f) ∧ ∀ s ∈ b, makeSocketKey s ≠ K) →
      alookup st.sockets K = Option.none →
      alookup (runPolls env st inputs).1.sockets K = Option.none := by
  intro inputs
  induction inputs with
  | nil => intro st K _ h; exact h
  | cons i rest ih =>
    intro st K hin hnone
    obtain ⟨b, f, hi, hKs⟩ := hin i (by simp)
    show alookup (runPolls env (poll env st i.input i.now).1 rest).1.sockets K = _
    rw [hi]
    exact ih _ K (fun j hj => hin j (by simp [hj]))
      (poll_tracker_absent env st b f i.now K hKs hnone)

/-- C3 amended: a tracked socket key with `lastSeen = t₀` never observed by
any of the subsequent successful polls remains in the tracker map exactly
as long as every poll ran at a time `≤ t₀ + 30 s`, and is absent once some
poll ran strictly later than `t₀ + 30 s` (the poll at exactly `t₀ + 30 s`
still keeps it, because `lastSeen.Before(now − 30 s)` is strict). -/
theorem stale_eviction_window (env : PollEnv) :
    ∀ (inputs : List PollInput) (st : CollectorState) (K : SocketKey)
      (tr : SocketTracker) (t0 : ℚ),
      KeysNodup st.sockets →
      alookup st.sockets K = some tr → tr.lastSeen = t0 →
      (∀ i ∈ inputs, ∃ b f, i.input = some (b, f) ∧ ∀ s ∈ b, makeSocketKey s ≠ K) →
      ((alookup (runPolls env st inputs).1.sockets K).isSome ↔
        ∀ i ∈ inputs, i.now ≤ t0 + 30) := by
  intro inputs
  induction inputs with
  | nil =>
    intro st K tr t0 _ hfound _ _
    simp [runPolls, hfound]
  | cons i rest ih =>
    intro st K tr t0 hnd hfound hseen hin
    obtain ⟨b, f, hi, hKs⟩ := hin i (by simp)
    show ((alookup (runPolls env (poll env st i.input i.now).1 rest).1.sockets K).isSome ↔ _)
    rw [hi]
    have hstep := poll_tracker_unobserved env st b f i.now K tr hnd hKs hfound
    by_cases hev : tr.lastSeen < i.now - 30
    · rw [if_pos hev] at hstep
      have habs := runPolls_absent env rest _ K (fun j hj => hin j (by simp [hj])) hstep
      rw [habs]
      simp only [Option.isSome_none, Bool.false_eq_true, false_iff]
      intro hall
      have hle := hall i (by simp)
      rw [hseen] at hev
      linarith
    · rw [if_neg hev] at hstep
      have hnd2 : KeysNodup (poll env st (some (b, f)) i.now).1.sockets := by
        show KeysNodup (evictStale _ _ _)
        unfold evictStale
        exact filter_keysNodup _ _ (sockFold_keysNodup env _ b _ hnd)
      have hiff := ih (poll env st (some (b, f)) i.now).1 K tr t0 hnd2 hstep hseen
        (fun j hj => hin j (by simp [hj]))
      rw [hiff]
      constructor
      · intro hall j hj
        rcases List.mem_cons.mp hj with hj | hj
        · subst hj
          rw [hseen] at hev
          push_neg at hev
          linarith
        · exact hall j hj
      · intro hall j hj
        exact hall j (by simp [hj])

/-- A concrete environment used by the witnesses. -/
def env0 : PollEnv := ⟨fun _ => 0, fun _ => ([], []), fun _ => ""⟩

/-- A concrete socket key, tracker and state (tracker last seen at 0). -/
def K0 : SocketKey := ⟨.tcp, .any 80, .any 0⟩

def tr0 : SocketTracker := ⟨0, 0, EMA.new emaAlpha, EMA.new emaAlpha, 0, 0⟩

def stW : CollectorState := ⟨[(K0, tr0)], [], [], RingBuffer.newN 60, some 0, 0, 0, []⟩

/-- C3 counterexample: a tracker whose key was last seen at `t₀ = 0` and is
not observed by a successful poll at exactly `t = t₀ + 30` SURVIVES that
poll, while the claim demands absence for every poll at `t ≥ t₀ + 30`. -/
theorem tracker_survives_at_ttl_boundary :
    alookup (poll env0 stW (some ([], [])) (0 + 30)).1.sockets K0 = some tr0 ∧
    tr0.lastSeen = 0 := by
  refine ⟨?_, rfl⟩
  have h := poll_tracker_unobserved env0 stW [] [] (0 + 30) K0 tr0
    (by simp [stW, KeysNodup]) (by simp) rfl
  rw [h, if_neg]
  show ¬ (tr0.lastSeen < 0 + 30 - 30)
  norm_num [tr0]

/-- Witness for C3 (amended): after one empty poll at `t = 31 > t₀ + 30`
the window condition decides presence. -/
theorem stale_eviction_window_witness :
    (alookup (runPolls env0 stW [⟨some ([], []), 31⟩]).1.sockets K0).isSome ↔
      ∀ i ∈ [PollInput.mk (some ([], [])) 31], i.now ≤ (0 : ℚ) + 30 :=
  stale_eviction_window env0 [⟨some ([], []), 31⟩] stW K0 tr0 0
    (by simp [stW, KeysNodup]) rfl rfl
    (by
      intro i hi
      simp only [List.mem_singleton] at hi
      subst hi
      exact ⟨[], [], rfl, by simp⟩)


/-! ## C10: PID-0 sockets and cumulative accounting -/

/-- The cumulative-table update of one socket step, isolated. -/
theorem processSocket_cumByPID_shape (env : PollEnv) (ctx : PollCtx)
    (acc : SockAcc) (s : MappedSocket) :
    ∃ pc, (processSocket env ctx acc s).cumByPID
      = if ((!ctx.isFirstPoll && (alookup acc.sockets (makeSocketKey s)).isSome)
            && s.pid != 0) = true
        then aupsert acc.cumByPID s.pid pc else acc.cumByPID :=
  ⟨_, rfl⟩

theorem processSocket_cum0 (env : PollEnv) (ctx : PollCtx)
    (acc : SockAcc) (s : MappedSocket) :
    alookup (processSocket env ctx acc s).cumByPID 0 = alookup acc.cumByPID 0 := by
  obtain ⟨pc, hpc⟩ := processSocket_cumByPID_shape env ctx acc s
  rw [hpc]
  split
  · next hc =>
    have hne : s.pid ≠ 0 := by
      simp only [Bool.and_eq_true, bne_iff_ne, ne_eq] at hc
      exact hc.2
    exact alookup_aupsert_ne _ _ _ _ (fun h0 => hne h0.symm)
  · rfl

theorem sockFold_cum0 (env : PollEnv) (ctx : PollCtx) :
    ∀ (batch : List MappedSocket) (acc : SockAcc),
      alookup (batch.foldl (processSocket env ctx) acc).cumByPID 0
        = alookup acc.cumByPID 0 := by
  intro batch
  induction batch with
  | nil => intro acc; rfl
  | cons s rest ih =>
    intro acc
    rw [List.foldl_cons, ih, processSocket_cum0]

theorem poll_cum0 (env : PollEnv) (st : CollectorState)
    (input : Option (List MappedSocket × List InterfaceStats)) (now : ℚ) :
    alookup (poll env st input now).1.cumByPID 0 = alookup st.cumByPID 0 := by
  rcases input with _ | ⟨b, f⟩
  · rfl
  · show alookup (b.foldl (processSocket env (pollCtxOf st now))
      ⟨st.sockets, [], st.totalCumUp, st.totalCumDown, st.cumByPID, []⟩).cumByPID 0 = _
    rw [sockFold_cum0]

theorem runPolls_cum0 (env : PollEnv) :
    ∀ (inputs : List PollInput) (st : CollectorState),
      alookup (runPolls env st inputs).1.cumByPID 0 = alookup st.cumByPID 0 := by
  intro inputs
  induction inputs with
  | nil => intro st; rfl
  | cons i rest ih =>
    intro st
    show alookup (runPolls env (poll env st i.input i.now).1 rest).1.cumByPID 0 = _
    rw [ih, poll_cum0]

theorem summFold_pid0 (env : PollEnv) (cum : List (Nat × ProcessCumulative))
    (hc0 : alookup cum 0 = Option.none) :
    ∀ (procs : List (Nat × ProcData)) (acc : SummAcc),
      (∀ p ∈ acc.processes, p.pid = 0 → p.cumUp = 0 ∧ p.cumDown = 0) →
      ∀ p ∈ (procs.foldl (buildSummary env cum) acc).processes,
        p.pid = 0 → p.cumUp = 0 ∧ p.cumDown = 0 := by
  intro procs
  induction procs with
  | nil => intro acc h; simpa using h
  | cons e rest ih =>
    intro acc hacc
    rw [List.foldl_cons]
    refine ih (buildSummary env cum acc e) ?_
    intro p hp hpid
    simp only [buildSummary, List.mem_append] at hp
    rcases hp with hp | hp
    · exact hacc p hp hpid
    · simp only [List.mem_singleton] at hp
      subst hp
      have hpid2 : e.1 = 0 := hpid
      simp [hpid2, hc0]

theorem poll_pid0_cums (env : PollEnv) (st : CollectorState)
    (b : List MappedSocket) (f : List InterfaceStats) (now : ℚ)
    (hc0 : alookup st.cumByPID 0 = Option.none) :
    ∀ snap, (poll env st (some (b, f)) now).2 = some snap →
      ∀ p ∈ snap.processes, p.pid = 0 → p.cumUp = 0 ∧ p.cumDown = 0 := by
  intro snap h
  simp only [poll, Option.some.injEq] at h
  subst h
  intro p hp hpid
  refine summFold_pid0 env _ ?_ _ ⟨st.procHistory, [], []⟩ (by simp) p hp hpid
  rw [sockFold_cum0]
  exact hc0

theorem runPolls_pid0_snaps (env : PollEnv) :
    ∀ (inputs : List PollInput) (st : CollectorState),
      alookup st.cumByPID 0 = Option.none →
      ∀ snap ∈ (runPolls env st inputs).2, ∀ p ∈ snap.processes,
        p.pid = 0 → p.cumUp = 0 ∧ p.cumDown = 0 := by
  intro inputs
  induction inputs with
  | nil => intro st _ snap hsnap; simp [runPolls] at hsnap
  | cons i rest ih =>
    intro st hc0 snap hsnap
    rw [show (runPolls env st (i :: rest)).2
        = (match (poll env st i.input i.now).2 with
           | some s => [s] | Option.none => [])
          ++ (runPolls env (poll env st i.input i.now).1 rest).2 from rfl] at hsnap
    rcases List.mem_append.mp hsnap with hleft | hright
    · rcases hin : i.input with _ | ⟨b, f⟩
      · rw [hin] at hleft
        simp [poll] at hleft
      · rw [hin] at hleft
        have hx : (poll env st (some (b, f)) i.now).2 = some snap := by
          rcases hpoll : (poll env st (some (b, f)) i.now).2 with _ | x
          · rw [hpoll] at hleft
            simp at hleft
          · rw [hpoll] at hleft
            simp only [List.mem_singleton] at hleft
            rw [hleft]
        exact poll_pid0_cums env st b f i.now hc0 snap hx
    · refine ih (poll env st i.input i.now).1 ?_ snap hright
      rw [poll_cum0]
      exact hc0

theorem updateProc_key_mem (pid : Nat) (n c : String) (f : ProcData → ProcData) :
    ∀ (procs : List (Nat × ProcData)) (q : Nat),
      q ∈ (updateProc procs pid n c f).map Prod.fst ↔
        q = pid ∨ q ∈ procs.map Prod.fst := by
  intro procs
  induction procs with
  | nil => intro q; simp [updateProc]
  | cons kv rest ih =>
    intro q
    by_cases h : kv.1 = pid
    · simp [updateProc, h]
    · simp only [updateProc, h, if_false, List.map_cons, List.mem_cons, ih]
      tauto

/-- The per-process buckets of one socket step are always an `updateProc`
on the socket's PID (for either dispatch branch). -/
theorem processSocket_procs_shape (env : PollEnv) (ctx : PollCtx)
    (acc : SockAcc) (s : MappedSocket) :
    ∃ f g, (processSocket env ctx acc s).procs
      = if s.state = stateListen
        then updateProc acc.procs s.pid s.processName s.cmdline f
        else updateProc acc.procs s.pid s.processName s.cmdline g :=
  ⟨_, _, rfl⟩

theorem processSocket_own_key (env : PollEnv) (ctx : PollCtx)
    (acc : SockAcc) (s : MappedSocket) :
    s.pid ∈ (processSocket env ctx acc s).procs.map Prod.fst := by
  obtain ⟨f, g, hshape⟩ := processSocket_procs_shape env ctx acc s
  rw [hshape]
  split <;> exact (updateProc_key_mem _ _ _ _ _ _).mpr (Or.inl rfl)

theorem processSocket_keys_mono (env : PollEnv) (ctx : PollCtx)
    (acc : SockAcc) (s : MappedSocket) (q : Nat)
    (h : q ∈ acc.procs.map Prod.fst) :
    q ∈ (processSocket env ctx acc s).procs.map Prod.fst := by
  obtain ⟨f, g, hshape⟩ := processSocket_procs_shape env ctx acc s
  rw [hshape]
  split <;> exact (updateProc_key_mem _ _ _ _ _ _).mpr (Or.inr h)

theorem sockFold_keys_mono (env : PollEnv) (ctx : PollCtx) :
    ∀ (batch : List MappedSocket) (acc : SockAcc) (q : Nat),
      q ∈ acc.procs.map Prod.fst →
      q ∈ (batch.foldl (processSocket env ctx) acc).procs.map Prod.fst := by
  intro batch
  induction batch with
  | nil => intro acc q h; exact h
  | cons s rest ih =>
    intro acc q h
    rw [List.foldl_cons]
    exact ih _ q (processSocket_keys_mono env ctx acc s q h)

theorem sockFold_pid_mem (env : PollEnv) (ctx : PollCtx) :
    ∀ (batch : List MappedSocket) (acc : SockAcc) (s : MappedSocket), s ∈ batch →
      s.pid ∈ (batch.foldl (processSocket env ctx) acc).procs.map Prod.fst := by
  intro batch
  induction batch with
  | nil => intro acc s h; simp at h
  | cons s2 rest ih =>
    intro acc s h
    rw [List.foldl_cons]
    rcases List.mem_cons.mp h with h | h
    · subst h
      exact sockFold_keys_mono env ctx rest _ s.pid (processSocket_own_key env ctx acc s)
    · exact ih _ s h

theorem summFold_processes_mono (env : PollEnv) (cum : List (Nat × ProcessCumulative)) :
    ∀ (procs : List (Nat × ProcData)) (acc : SummAcc) (p : ProcessSummary),
      p ∈ acc.processes → p ∈ (procs.foldl (buildSummary env cum) acc).processes := by
  intro procs
  induction procs with
  | nil => intro acc p h; exact h
  | cons e rest ih =>
    intro acc p h
    rw [List.foldl_cons]
    refine ih _ p ?_
    show p ∈ acc.processes ++ _
    exact List.mem_append.mpr (Or.inl h)

theorem summFold_pid_exists (env : PollEnv) (cum : List (Nat × ProcessCumulative)) :
    ∀ (procs : List (Nat × ProcData)) (acc : SummAcc) (q : Nat),
      q ∈ procs.map Prod.fst →
      ∃ p ∈ (procs.foldl (buildSummary env cum) acc).processes, p.pid = q := by
  intro procs
  induction procs with
  | nil => intro acc q h; simp at h
  | cons e rest ih =>
    intro acc q h
    rw [List.foldl_cons]
    rw [List.map_cons, List.mem_cons] at h
    rcases h with h | h
    · subst h
      exact ⟨_, summFold_processes_mono env cum rest (buildSummary env cum acc e) _
        (List.mem_append.mpr (Or.inr (List.mem_singleton.mpr rfl))), rfl⟩
    · exact ih (buildSummary env cum acc e) q h

/-- C10: sockets owned by PID 0 are aggregated into a PID-0 process
summary, but their byte deltas feed only the session totals: the per-PID
cumulative table never gains a PID-0 entry, so `CumulativeByPID 0` is
`(0, 0)` after any run and every PID-0 summary reports zero cumulative
bytes. -/
theorem pid0_cumulative (env : PollEnv) (inputs : List PollInput) :
    CumulativeByPID (runPolls env initialState inputs).1 0 = (0, 0) ∧
    (∀ snap ∈ (runPolls env initialState inputs).2, ∀ p ∈ snap.processes,
        p.pid = 0 → p.cumUp = 0 ∧ p.cumDown = 0) ∧
    (∀ (ctx : PollCtx) (acc : SockAcc) (s : MappedSocket), s.pid = 0 →
        (processSocket env ctx acc s).cumByPID = acc.cumByPID ∧
        ∀ tr, alookup acc.sockets (makeSocketKey s) = some tr →
          ctx.isFirstPoll = false →
          (processSocket env ctx acc s).totalCumUp
            = (acc.totalCumUp + safeDelta s.bytesSent tr.prevBytesSent) % 2 ^ 64 ∧
          (processSocket env ctx acc s).totalCumDown
            = (acc.totalCumDown + safeDelta s.bytesRecv tr.prevBytesRecv) % 2 ^ 64) ∧
    (∀ (st : CollectorState) (b : List MappedSocket) (f : List InterfaceStats)
        (now : ℚ) (s : MappedSocket), s ∈ b → s.pid = 0 →
        ∀ snap, (poll env st (some (b, f)) now).2 = some snap →
          ∃ p ∈ snap.processes, p.pid = 0) := by
  refine ⟨?_, ?_, ?_, ?_⟩
  · show (match alookup (runPolls env initialState inputs).1.cumByPID 0 with
      | some pc => (pc.bytesUp, pc.bytesDown) | Option.none => (0, 0)) = (0, 0)
    rw [runPolls_cum0]
    rfl
  · exact runPolls_pid0_snaps env inputs initialState rfl
  · intro ctx acc s hpid
    constructor
    · obtain ⟨pc, hpc⟩ := processSocket_cumByPID_shape env ctx acc s
      rw [hpc, if_neg]
      simp [hpid]
    · intro tr hfound hfp
      constructor
      · simp only [processSocket, hfound, hfp]
        simp
      · simp only [processSocket, hfound, hfp]
        simp
  · intro st b f now s hs hpid snap h
    simp only [poll, Option.some.injEq] at h
    subst h
    refine summFold_pid_exists env _ _ ⟨st.procHistory, [], []⟩ 0 ?_
    rw [← hpid]
    exact sockFold_pid_mem env (pollCtxOf st now) b _ s hs

/-- Witness for C10 at a concrete two-poll run containing a PID-0 socket. -/
theorem pid0_cumulative_witness :
    CumulativeByPID (runPolls env0 initialState
      [⟨some ([⟨.tcp, .v4 10 0 0 1, 5, .v4 8 8 8 8, 443, 1, 0, 100, 100, 0, "", ""⟩], []), 0⟩,
       ⟨some ([⟨.tcp, .v4 10 0 0 1, 5, .v4 8 8 8 8, 443, 1, 0, 300, 400, 0, "", ""⟩], []), 1⟩]).1 0
      = (0, 0) :=
  (pid0_cumulative env0
    [⟨some ([⟨.tcp, .v4 10 0 0 1, 5, .v4 8 8 8 8, 443, 1, 0, 100, 100, 0, "", ""⟩], []), 0⟩,
     ⟨some ([⟨.tcp, .v4 10 0 0 1, 5, .v4 8 8 8 8, 443, 1, 0, 300, 400, 0, "", ""⟩], []), 1⟩]).1


/-! ## C2: counter-reset handling -/

/-- C2 amended: when a socket's cumulative counters drop below the
tracker's previous values, both deltas clamp to 0 (`safeDelta`), so the
RAW rate for the tick is 0 — the EMITTED rate is the EMA decay
`(1-α)·previous`, which is 0 exactly when the previous smoothed value was
0 — and the tracker's previous counters are replaced by the new (smaller)
values, so the following tick computes deltas from them. -/
theorem counter_reset_step (env : PollEnv) (ctx : PollCtx) (acc : SockAcc)
    (s : MappedSocket) (tr : SocketTracker)
    (hfound : alookup acc.sockets (makeSocketKey s) = some tr)
    (hfp : ctx.isFirstPoll = false)
    (hsent : s.bytesSent < tr.prevBytesSent)
    (hrecv : s.bytesRecv < tr.prevBytesRecv) :
    safeDelta s.bytesSent tr.prevBytesSent = 0 ∧
    safeDelta s.bytesRecv tr.prevBytesRecv = 0 ∧
    socketRates ctx acc.sockets s
      = ((1 - tr.upEMA.alpha) * tr.upEMA.value,
         (1 - tr.downEMA.alpha) * tr.downEMA.value) ∧
    (tr.upEMA.value = 0 → (socketRates ctx acc.sockets s).1 = 0) ∧
    (tr.downEMA.value = 0 → (socketRates ctx acc.sockets s).2 = 0) ∧
    alookup (processSocket env ctx acc s).sockets (makeSocketKey s)
      = some ⟨s.bytesSent, s.bytesRecv, (tr.upEMA.update 0).1, (tr.downEMA.update 0).1,
              tr.firstSeen, ctx.now⟩ := by
  have hds : safeDelta s.bytesSent tr.prevBytesSent = 0 := by
    unfold safeDelta
    rw [if_neg (by omega)]
  have hdr : safeDelta s.bytesRecv tr.prevBytesRecv = 0 := by
    unfold safeDelta
    rw [if_neg (by omega)]
  have hrates : socketRates ctx acc.sockets s
      = ((1 - tr.upEMA.alpha) * tr.upEMA.value,
         (1 - tr.downEMA.alpha) * tr.downEMA.value) := by
    unfold socketRates
    rw [hfound]
    simp [hfp, hds, hdr, EMA.update]
  refine ⟨hds, hdr, hrates, fun h0 => by rw [hrates]; simp [h0],
    fun h0 => by rw [hrates]; simp [h0], ?_⟩
  have hsx : (processSocket env ctx acc s).sockets
      = aupsert acc.sockets (makeSocketKey s)
          ⟨s.bytesSent, s.bytesRecv, (tr.upEMA.update 0).1, (tr.downEMA.update 0).1,
           tr.firstSeen, ctx.now⟩ := by
    simp only [processSocket, hfound, hfp]
    simp [hds, hdr, EMA.update]
  rw [hsx, alookup_aupsert_self]

/-- The concrete socket used by the reset scenario (PID 42). -/
def mkSock (sent recv : Nat) : MappedSocket :=
  ⟨.tcp, .v4 10 0 0 1, 5, .v4 1 2 3 4, 9, stateEstablished, 0, sent, recv, 42, "p", "p"⟩

def kK : SocketKey := ⟨.tcp, .ip4 10 0 0 1 5, .ip4 1 2 3 4 9⟩

def trW : SocketTracker := ⟨1000, 1000, ⟨emaAlpha, 0⟩, ⟨emaAlpha, 0⟩, 0, 0⟩

def accW : SockAcc := ⟨[(kK, trW)], [], 0, 0, [], []⟩

theorem makeSocketKey_mkSock (st ino sent recv pid : Nat) (n c : String) :
    makeSocketKey ⟨.tcp, .v4 10 0 0 1, 5, .v4 1 2 3 4, 9, st, ino, sent, recv, pid, n, c⟩
      = kK := rfl

/-- Witness for C2 (amended) on a concrete dropped counter (1000 → 500). -/
theorem counter_reset_step_witness :
    safeDelta (mkSock 500 500).bytesSent trW.prevBytesSent = 0 ∧
    (trW.upEMA.value = 0 →
      (socketRates ⟨2, 1, false⟩ accW.sockets (mkSock 500 500)).1 = 0) :=
  ⟨(counter_reset_step env0 ⟨2, 1, false⟩ accW (mkSock 500 500) trW rfl rfl
      (by decide) (by decide)).1,
   (counter_reset_step env0 ⟨2, 1, false⟩ accW (mkSock 500 500) trW rfl rfl
      (by decide) (by decide)).2.2.2.1⟩

/-- A successful poll always emits a snapshot. -/
theorem poll_emits (env : PollEnv) (st : CollectorState) (b : List MappedSocket)
    (f : List InterfaceStats) (now : ℚ) :
    ∃ sn, (poll env st (some (b, f)) now).2 = some sn :=
  ⟨_, rfl⟩

/-- The collector state after the first poll of the reset scenario. -/
def st1 : CollectorState :=
  ⟨[(kK, ⟨0, 0, ⟨3 / 10, 0⟩, ⟨3 / 10, 0⟩, 0, 0⟩)], [], [(42, ⟨60, [0]⟩)],
   ⟨60, [0]⟩, some 0, 0, 0, []⟩

/-- The collector state after the second poll (rate 300 B/s each way). -/
def st2 : CollectorState :=
  ⟨[(kK, ⟨1000, 1000, ⟨3 / 10, 300⟩, ⟨3 / 10, 300⟩, 0, 1⟩)], [],
   [(42, ⟨60, [0, 600]⟩)], ⟨60, [0, 0]⟩, some 1, 1000, 1000,
   [(42, ⟨42, "p", 1000, 1000⟩)]⟩

set_option maxHeartbeats 2000000 in
theorem resetPoll1 :
    (poll env0 initialState (some ([mkSock 0 0], [])) 0).1 = st1 := by
  norm_num [poll, pollCtxOf, pollDt, processSocket, socketRates, evictStale,
    buildSummary, alookup, aupsert, updateProc, newProcData, makeSocketKey_mkSock, mkSock, initialState, st1,
    EMA.update, EMA.new, emaAlpha, RingBuffer.push, RingBuffer.newN,
    RingBuffer.samples, safeDelta, kK, stateEstablished, stateListen]

set_option maxHeartbeats 2000000 in
theorem resetPoll2 :
    (poll env0 st1 (some ([mkSock 1000 1000], [])) 1).1 = st2 := by
  norm_num [poll, pollCtxOf, pollDt, processSocket, socketRates, evictStale,
    buildSummary, alookup, aupsert, updateProc, newProcData, makeSocketKey_mkSock, mkSock, st1, st2,
    EMA.update, EMA.new, emaAlpha, RingBuffer.push, RingBuffer.newN,
    RingBuffer.samples, safeDelta, kK, stateEstablished, stateListen]

set_option maxHeartbeats 2000000 in
theorem resetPoll3_rate :
    ∀ sn, (poll env0 st2 (some ([mkSock 500 500], [])) 2).2 = some sn →
      sn.processes.map (fun p => p.connections.map (fun c => c.upRate)) = [[210]] := by
  intro sn h
  simp only [poll, Option.some.injEq] at h
  subst h
  norm_num [pollCtxOf, pollDt, processSocket, socketRates, buildSummary,
    alookup, aupsert, updateProc, newProcData, makeSocketKey_mkSock, mkSock, st2, EMA.update, EMA.new,
    emaAlpha, RingBuffer.push, RingBuffer.newN, RingBuffer.samples,
    safeDelta, kK, stateEstablished, stateListen]

/-- C2 counterexample: socket counters go 0 → 1000 → 500 over three polls
one second apart. On the reset tick the EMITTED rate is `0.7 · 300 = 210`
bytes/s — the EMA decay of the previous tick's 300 B/s — not 0 as the
claim states (only the raw delta is clamped to 0). -/
theorem counter_reset_rate_not_zero :
    ∃ s1 s2 s3,
      (runPolls env0 initialState
        [⟨some ([mkSock 0 0], []), 0⟩, ⟨some ([mkSock 1000 1000], []), 1⟩,
         ⟨some ([mkSock 500 500], []), 2⟩]).2 = [s1, s2, s3] ∧
      s3.processes.map (fun p => p.connections.map (fun c => c.upRate)) = [[210]] ∧
      (210 : ℚ) ≠ 0 := by
  obtain ⟨sA, hA⟩ := poll_emits env0 initialState [mkSock 0 0] [] 0
  obtain ⟨sB, hB⟩ := poll_emits env0 st1 [mkSock 1000 1000] [] 1
  obtain ⟨sC, hC⟩ := poll_emits env0 st2 [mkSock 500 500] [] 2
  refine ⟨sA, sB, sC, ?_, resetPoll3_rate sC hC, by norm_num⟩
  simp only [runPolls]
  rw [resetPoll1, hA, resetPoll2, hB, hC]
  rfl


/-! ## C1: aggregation identities of a snapshot -/

/-- Sum of `UpRate` over process summaries. -/
def sumPSUp (l : List ProcessSummary) : ℚ := (l.map fun p => p.upRate).sum

/-- Sum of `DownRate` over process summaries. -/
def sumPSDown (l : List ProcessSummary) : ℚ := (l.map fun p => p.downRate).sum

/-- Sum of connection `UpRate` over all connections of all summaries. -/
def sumPSConnUp (l : List ProcessSummary) : ℚ :=
  (l.map fun p => (p.connections.map fun c => c.upRate).sum).sum

/-- Sum of connection `DownRate` over all connections of all summaries. -/
def sumPSConnDown (l : List ProcessSummary) : ℚ :=
  (l.map fun p => (p.connections.map fun c => c.downRate).sum).sum

/-- Total number of `Connection` entries across all summaries. -/
def numPSConns (l : List ProcessSummary) : ℕ := (l.map fun p => p.connections.length).sum

/-- Sum of `ConnCount` over remote-host summaries. -/
def sumRHConns (l : List RemoteHostSummary) : ℕ := (l.map fun h => h.connCount).sum

/-- Sum of per-socket up rates, each read against the tracker map `m`. -/
def rateSumUp (ctx : PollCtx) (m : List (SocketKey × SocketTracker))
    (l : List MappedSocket) : ℚ :=
  (l.map fun s => (socketRates ctx m s).1).sum

/-- Sum of per-socket down rates, each read against the tracker map `m`. -/
def rateSumDown (ctx : PollCtx) (m : List (SocketKey × SocketTracker))
    (l : List MappedSocket) : ℚ :=
  (l.map fun s => (socketRates ctx m s).2).sum

/-- Sum of `upRate` over the per-process buckets. -/
def pdSumUp (procs : List (Nat × ProcData)) : ℚ := (procs.map fun e => e.2.upRate).sum

def pdSumDown (procs : List (Nat × ProcData)) : ℚ := (procs.map fun e => e.2.downRate).sum

/-- Sum of connection up rates over the per-process buckets. -/
def pdSumConnUp (procs : List (Nat × ProcData)) : ℚ :=
  (procs.map fun e => (e.2.conns.map fun c => c.upRate).sum).sum

def pdSumConnDown (procs : List (Nat × ProcData)) : ℚ :=
  (procs.map fun e => (e.2.conns.map fun c => c.downRate).sum).sum

/-- Number of buffered connections over the per-process buckets. -/
def pdNumConns (procs : List (Nat × ProcData)) : ℕ :=
  (procs.map fun e => e.2.conns.length).sum

/-- Number of buffered connections with a non-nil destination. -/
def pdNumConnsNN (procs : List (Nat × ProcData)) : ℕ :=
  (procs.map fun e => (e.2.conns.filter fun c => !decide (c.dstIP = IPAddr.nil)).length).sum

/-- The tracker the loop body reads for socket `s` (existing or fresh). -/
def trackerOf (ctx : PollCtx) (sockets : List (SocketKey × SocketTracker))
    (s : MappedSocket) : SocketTracker :=
  match alookup sockets (makeSocketKey s) with
  | some t => t
  | Option.none => ⟨s.bytesSent, s.bytesRecv, EMA.new emaAlpha, EMA.new emaAlpha, ctx.now, 0⟩

/-- The `model.Connection` built for a non-listen socket by the loop body. -/
def connOf (env : PollEnv) (ctx : PollCtx) (sockets : List (SocketKey × SocketTracker))
    (s : MappedSocket) : Connection :=
  { proto := s.proto, srcIP := s.srcIP, srcPort := s.srcPort,
    dstIP := s.dstIP, dstPort := s.dstPort, state := s.state,
    upRate := (socketRates ctx sockets s).1, downRate := (socketRates ctx sockets s).2,
    age := ctx.now - (trackerOf ctx sockets s).firstSeen,
    remoteHost := env.resolve s.dstIP,
    service := serviceNameFor s.dstPort s.srcPort }

theorem processSocket_procs_eq (env : PollEnv) (ctx : PollCtx) (acc : SockAcc)
    (s : MappedSocket) :
    (processSocket env ctx acc s).procs
      = if s.state = stateListen
        then updateProc acc.procs s.pid s.processName s.cmdline (fun pd =>
          { pd with listen := pd.listen ++ [⟨s.proto, s.srcIP, s.srcPort⟩],
                    upRate := pd.upRate + (socketRates ctx acc.sockets s).1,
                    downRate := pd.downRate + (socketRates ctx acc.sockets s).2 })
        else updateProc acc.procs s.pid s.processName s.cmdline (fun pd =>
          { pd with conns := pd.conns ++ [connOf env ctx acc.sockets s],
                    upRate := pd.upRate + (socketRates ctx acc.sockets s).1,
                    downRate := pd.downRate + (socketRates ctx acc.sockets s).2 }) := rfl

/-- A measure that every bucket update shifts by `δ` and that vanishes on a
fresh bucket shifts the bucket-list total by exactly `δ`. -/
theorem updateProc_measure {M : Type} [AddCommMonoid M] (μ : ProcData → M)
    (procs : List (Nat × ProcData)) (pid : Nat) (n c : String)
    (f : ProcData → ProcData) (δ : M)
    (hf : ∀ pd, μ (f pd) = μ pd + δ) (hnew : μ (newProcData pid n c) = 0) :
    ((updateProc procs pid n c f).map fun e => μ e.2).sum
      = ((procs.map fun e => μ e.2).sum) + δ := by
  induction procs with
  | nil => simp [updateProc, hf, hnew]
  | cons e rest ih =>
    by_cases h : e.1 = pid
    · simp only [updateProc, h, if_true, eq_self_iff_true, List.map_cons, List.sum_cons, hf]
      rw [add_assoc, add_comm δ, ← add_assoc]
    · simp only [updateProc, h, if_false, List.map_cons, List.sum_cons, ih]
      rw [add_assoc]

theorem socketRates_congr (ctx : PollCtx) (m m2 : List (SocketKey × SocketTracker))
    (s : MappedSocket)
    (h : alookup m (makeSocketKey s) = alookup m2 (makeSocketKey s)) :
    socketRates ctx m s = socketRates ctx m2 s := by
  unfold socketRates
  rw [h]

theorem processSocket_sockets_alookup_ne (env : PollEnv) (ctx : PollCtx)
    (acc : SockAcc) (s : MappedSocket) (K : SocketKey) (hne : K ≠ makeSocketKey s) :
    alookup (processSocket env ctx acc s).sockets K = alookup acc.sockets K := by
  show alookup (aupsert acc.sockets (makeSocketKey s) _) K = _
  exact alookup_aupsert_ne _ _ _ _ hne

/-- One socket-loop iteration shifts the six bucket totals: every socket
adds its rates to the process totals; only non-listen sockets contribute a
`Connection` (and its rates); only non-listen sockets with a non-nil
destination contribute a host-countable connection. -/
theorem processSocket_pdSums (env : PollEnv) (ctx : PollCtx) (acc : SockAcc)
    (s : MappedSocket) :
    pdSumUp (processSocket env ctx acc s).procs
      = pdSumUp acc.procs + (socketRates ctx acc.sockets s).1 ∧
    pdSumDown (processSocket env ctx acc s).procs
      = pdSumDown acc.procs + (socketRates ctx acc.sockets s).2 ∧
    pdSumConnUp (processSocket env ctx acc s).procs
      = pdSumConnUp acc.procs
        + (if s.state = stateListen then 0 else (socketRates ctx acc.sockets s).1) ∧
    pdSumConnDown (processSocket env ctx acc s).procs
      = pdSumConnDown acc.procs
        + (if s.state = stateListen then 0 else (socketRates ctx acc.sockets s).2) ∧
    pdNumConns (processSocket env ctx acc s).procs
      = pdNumConns acc.procs + (if s.state = stateListen then 0 else 1) ∧
    pdNumConnsNN (processSocket env ctx acc s).procs
      = pdNumConnsNN acc.procs
        + (if s.state = stateListen then 0
           else if s.dstIP = IPAddr.nil then 0 else 1) := by
  rw [processSocket_procs_eq]
  by_cases hl : s.state = stateListen
  · simp only [if_pos hl]
    refine ⟨?_, ?_, ?_, ?_, ?_, ?_⟩
    · unfold pdSumUp
      exact updateProc_measure (fun pd => pd.upRate) _ _ _ _ _ _ (fun pd => rfl) rfl
    · unfold pdSumDown
      exact updateProc_measure (fun pd => pd.downRate) _ _ _ _ _ _ (fun pd => rfl) rfl
    · unfold pdSumConnUp
      rw [updateProc_measure (fun pd => (pd.conns.map fun c => c.upRate).sum)
        _ _ _ _ _ 0 (fun pd => by simp) rfl]
    · unfold pdSumConnDown
      rw [updateProc_measure (fun pd => (pd.conns.map fun c => c.downRate).sum)
        _ _ _ _ _ 0 (fun pd => by simp) rfl]
    · unfold pdNumConns
      rw [updateProc_measure (fun pd => pd.conns.length) _ _ _ _ _ 0
        (fun pd => by simp) rfl]
    · unfold pdNumConnsNN
      rw [updateProc_measure
        (fun pd => (pd.conns.filter fun c => !decide (c.dstIP = IPAddr.nil)).length)
        _ _ _ _ _ 0 (fun pd => by simp) rfl]
  · simp only [if_neg hl]
    refine ⟨?_, ?_, ?_, ?_, ?_, ?_⟩
    · unfold pdSumUp
      exact updateProc_measure (fun pd => pd.upRate) _ _ _ _ _ _ (fun pd => rfl) rfl
    · unfold pdSumDown
      exact updateProc_measure (fun pd => pd.downRate) _ _ _ _ _ _ (fun pd => rfl) rfl
    · unfold pdSumConnUp
      rw [updateProc_measure (fun pd => (pd.conns.map fun c => c.upRate).sum)
        _ _ _ _ _ ((socketRates ctx acc.sockets s).1) (fun pd => by simp [connOf]) rfl]
    · unfold pdSumConnDown
      rw [updateProc_measure (fun pd => (pd.conns.map fun c => c.downRate).sum)
        _ _ _ _ _ ((socketRates ctx acc.sockets s).2) (fun pd => by simp [connOf]) rfl]
    · unfold pdNumConns
      rw [updateProc_measure (fun pd => pd.conns.length) _ _ _ _ _ 1
        (fun pd => by simp) rfl]
    · unfold pdNumConnsNN
      by_cases hnil : s.dstIP = IPAddr.nil
      · simp only [if_pos hnil]
        rw [updateProc_measure
          (fun pd => (pd.conns.filter fun c => !decide (c.dstIP = IPAddr.nil)).length)
          _ _ _ _ _ 0 (fun pd => by simp [connOf, hnil]) rfl]
      · simp only [if_neg hnil]
        rw [updateProc_measure
          (fun pd => (pd.conns.filter fun c => !decide (c.dstIP = IPAddr.nil)).length)
          _ _ _ _ _ 1 (fun pd => by simp [connOf, hnil]) rfl]

/-- The socket loop accumulates the six bucket totals over the whole batch.
The map `m` is a stable reference (the pre-poll tracker map): as long as
the batch's keys are distinct, each socket's rate reads the pre-poll
tracker, because earlier iterations only touched other keys. -/
theorem sockFold_pdSums (env : PollEnv) (ctx : PollCtx) :
    ∀ (batch : List MappedSocket) (acc : SockAcc) (m : List (SocketKey × SocketTracker)),
      (∀ s ∈ batch, alookup acc.sockets (makeSocketKey s) = alookup m (makeSocketKey s)) →
      (batch.map makeSocketKey).Nodup →
      pdSumUp (batch.foldl (processSocket env ctx) acc).procs
        = pdSumUp acc.procs + rateSumUp ctx m batch ∧
      pdSumDown (batch.foldl (processSocket env ctx) acc).procs
        = pdSumDown acc.procs + rateSumDown ctx m batch ∧
      pdSumConnUp (batch.foldl (processSocket env ctx) acc).procs
        = pdSumConnUp acc.procs
          + rateSumUp ctx m (batch.filter fun s => !decide (s.state = stateListen)) ∧
      pdSumConnDown (batch.foldl (processSocket env ctx) acc).procs
        = pdSumConnDown acc.procs
          + rateSumDown ctx m (batch.filter fun s => !decide (s.state = stateListen)) ∧
      pdNumConns (batch.foldl (processSocket env ctx) acc).procs
        = pdNumConns acc.procs
          + (batch.filter fun s => !decide (s.state = stateListen)).length ∧
      pdNumConnsNN (batch.foldl (processSocket env ctx) acc).procs
        = pdNumConnsNN acc.procs
          + (batch.filter fun s =>
              !decide (s.state = stateListen) && !decide (s.dstIP = IPAddr.nil)).length := by
  intro batch
  induction batch with
  | nil =>
    intro acc m _ _
    simp [rateSumUp, rateSumDown]
  | cons s rest ih =>
    intro acc m hagree hnd
    rw [List.map_cons] at hnd
    have hhd : makeSocketKey s ∉ rest.map makeSocketKey := (List.nodup_cons.mp hnd).1
    have htl : (rest.map makeSocketKey).Nodup := (List.nodup_cons.mp hnd).2
    have hagree0 := hagree s (List.mem_cons_self s rest)
    have hrate : socketRates ctx acc.sockets s = socketRates ctx m s :=
      socketRates_congr ctx _ _ s hagree0
    have hagree2 : ∀ s2 ∈ rest,
        alookup (processSocket env ctx acc s).sockets (makeSocketKey s2)
          = alookup m (makeSocketKey s2) := by
      intro s2 hs2
      rw [processSocket_sockets_alookup_ne env ctx acc s _
        (fun he => hhd (he ▸ List.mem_map_of_mem _ hs2))]
      exact hagree s2 (List.mem_cons_of_mem _ hs2)
    obtain ⟨i1, i2, i3, i4, i5, i6⟩ := ih (processSocket env ctx acc s) m hagree2 htl
    obtain ⟨p1, p2, p3, p4, p5, p6⟩ := processSocket_pdSums env ctx acc s
    rw [hrate] at p1 p2 p3 p4
    rw [List.foldl_cons]
    refine ⟨?_, ?_, ?_, ?_, ?_, ?_⟩
    · rw [i1, p1]
      unfold rateSumUp
      rw [List.map_cons, List.sum_cons]
      ring
    · rw [i2, p2]
      unfold rateSumDown
      rw [List.map_cons, List.sum_cons]
      ring
    · rw [i3, p3, List.filter_cons]
      by_cases hl : s.state = stateListen
      · simp [hl]
      · simp only [if_neg hl]
        have hcond : (!decide (s.state = stateListen)) = true := by
          simp [hl]
        rw [if_pos hcond]
        unfold rateSumUp
        rw [List.map_cons, List.sum_cons]
        ring
    · rw [i4, p4, List.filter_cons]
      by_cases hl : s.state = stateListen
      · simp [hl]
      · simp only [if_neg hl]
        have hcond : (!decide (s.state = stateListen)) = true := by
          simp [hl]
        rw [if_pos hcond]
        unfold rateSumDown
        rw [List.map_cons, List.sum_cons]
        ring
    · rw [i5, p5, List.filter_cons]
      by_cases hl : s.state = stateListen
      · simp [hl]
      · simp only [if_neg hl]
        have hcond : (!decide (s.state = stateListen)) = true := by
          simp [hl]
        rw [if_pos hcond, List.length_cons]
        omega
    · rw [i6, p6, List.filter_cons]
      by_cases hl : s.state = stateListen
      · have hcf : ¬((!decide (s.state = stateListen)
            && !decide (s.dstIP = IPAddr.nil)) = true) := by
          simp [hl]
        rw [if_neg hcf, if_pos hl]
        omega
      · by_cases hnil : s.dstIP = IPAddr.nil
        · have hcf : ¬((!decide (s.state = stateListen)
              && !decide (s.dstIP = IPAddr.nil)) = true) := by
            simp [hnil]
          rw [if_neg hcf, if_neg hl, if_pos hnil]
          omega
        · have hcond : (!decide (s.state = stateListen) && !decide (s.dstIP = IPAddr.nil))
              = true := by
            simp [hl, hnil]
          rw [if_pos hcond, if_neg hl, if_neg hnil, List.length_cons]
          omega

/-- The summary loop copies each bucket's `upRate` into its summary. -/
theorem summFold_upRate (env : PollEnv) (cum : List (Nat × ProcessCumulative)) :
    ∀ (procs : List (Nat × ProcData)) (acc : SummAcc),
      sumPSUp ((procs.foldl (buildSummary env cum) acc).processes)
        = sumPSUp acc.processes + pdSumUp procs := by
  intro procs
  induction procs with
  | nil =>
    intro acc
    simp [pdSumUp]
  | cons e rest ih =>
    intro acc
    have hstep : sumPSUp (buildSummary env cum acc e).processes
        = sumPSUp acc.processes + e.2.upRate := by
      simp [buildSummary, sumPSUp]
    rw [List.foldl_cons, ih, hstep]
    simp only [pdSumUp, List.map_cons, List.sum_cons]
    ring

theorem summFold_downRate (env : PollEnv) (cum : List (Nat × ProcessCumulative)) :
    ∀ (procs : List (Nat × ProcData)) (acc : SummAcc),
      sumPSDown ((procs.foldl (buildSummary env cum) acc).processes)
        = sumPSDown acc.processes + pdSumDown procs := by
  intro procs
  induction procs with
  | nil =>
    intro acc
    simp [pdSumDown]
  | cons e rest ih =>
    intro acc
    have hstep : sumPSDown (buildSummary env cum acc e).processes
        = sumPSDown acc.processes + e.2.downRate := by
      simp [buildSummary, sumPSDown]
    rw [List.foldl_cons, ih, hstep]
    simp only [pdSumDown, List.map_cons, List.sum_cons]
    ring

/-- The summary loop copies each bucket's connection list verbatim. -/
theorem summFold_connUp (env : PollEnv) (cum : List (Nat × ProcessCumulative)) :
    ∀ (procs : List (Nat × ProcData)) (acc : SummAcc),
      sumPSConnUp ((procs.foldl (buildSummary env cum) acc).processes)
        = sumPSConnUp acc.processes + pdSumConnUp procs := by
  intro procs
  induction procs with
  | nil =>
    intro acc
    simp [pdSumConnUp]
  | cons e rest ih =>
    intro acc
    have hstep : sumPSConnUp (buildSummary env cum acc e).processes
        = sumPSConnUp acc.processes + (e.2.conns.map fun c => c.upRate).sum := by
      simp [buildSummary, sumPSConnUp]
    rw [List.foldl_cons, ih, hstep]
    simp only [pdSumConnUp, List.map_cons, List.sum_cons]
    ring

theorem summFold_connDown (env : PollEnv) (cum : List (Nat × ProcessCumulative)) :
    ∀ (procs : List (Nat × ProcData)) (acc : SummAcc),
      sumPSConnDown ((procs.foldl (buildSummary env cum) acc).processes)
        = sumPSConnDown acc.processes + pdSumConnDown procs := by
  intro procs
  induction procs with
  | nil =>
    intro acc
    simp [pdSumConnDown]
  | cons e rest ih =>
    intro acc
    have hstep : sumPSConnDown (buildSummary env cum acc e).processes
        = sumPSConnDown acc.processes + (e.2.conns.map fun c => c.downRate).sum := by
      simp [buildSummary, sumPSConnDown]
    rw [List.foldl_cons, ih, hstep]
    simp only [pdSumConnDown, List.map_cons, List.sum_cons]
    ring

theorem summFold_connLen (env : PollEnv) (cum : List (Nat × ProcessCumulative)) :
    ∀ (procs : List (Nat × ProcData)) (acc : SummAcc),
      numPSConns ((procs.foldl (buildSummary env cum) acc).processes)
        = numPSConns acc.processes + pdNumConns procs := by
  intro procs
  induction procs with
  | nil =>
    intro acc
    simp [pdNumConns]
  | cons e rest ih =>
    intro acc
    have hstep : numPSConns (buildSummary env cum acc e).processes
        = numPSConns acc.processes + e.2.conns.length := by
      simp [buildSummary, numPSConns]
    rw [List.foldl_cons, ih, hstep]
    simp only [pdNumConns, List.map_cons, List.sum_cons]
    ring

theorem sum_connCount_aupsert_none (m : List (IPAddr × HostAgg)) (k : IPAddr)
    (v : HostAgg) (hnone : alookup m k = Option.none) :
    ((aupsert m k v).map fun e => e.2.connCount).sum
      = ((m.map fun e => e.2.connCount).sum) + v.connCount := by
  induction m with
  | nil => simp [aupsert]
  | cons e rest ih =>
    by_cases h : e.1 = k
    · simp [alookup, h] at hnone
    · have h2 : alookup rest k = Option.none := by
        simpa [alookup, h] using hnone
      simp only [aupsert, h, if_false, List.map_cons, List.sum_cons, ih h2]
      omega

theorem sum_connCount_aupsert_found (k : IPAddr) (v : HostAgg) :
    ∀ (m : List (IPAddr × HostAgg)) (b : HostAgg), alookup m k = some b →
      ((aupsert m k v).map fun e => e.2.connCount).sum + b.connCount
        = ((m.map fun e => e.2.connCount).sum) + v.connCount := by
  intro m
  induction m with
  | nil =>
    intro b h
    simp [alookup] at h
  | cons e rest ih =>
    intro b h
    by_cases hk : e.1 = k
    · have hb : e.2 = b := by
        simpa [alookup, hk] using h
      subst hb
      simp only [aupsert, hk, if_true, eq_self_iff_true, List.map_cons, List.sum_cons]
      omega
    · have h2 : alookup rest k = some b := by
        simpa [alookup, hk] using h
      have hrec := ih b h2
      simp only [aupsert, hk, if_false, List.map_cons, List.sum_cons]
      omega

theorem sum_connCount_aupsert_inc (m : List (IPAddr × HostAgg)) (k : IPAddr)
    (v b : HostAgg) (hfound : alookup m k = some b)
    (hinc : v.connCount = b.connCount + 1) :
    ((aupsert m k v).map fun e => e.2.connCount).sum
      = ((m.map fun e => e.2.connCount).sum) + 1 := by
  have h := sum_connCount_aupsert_found k v m b hfound
  omega

theorem sum_connCount_aupsert_one (m : List (IPAddr × HostAgg)) (k : IPAddr)
    (v : HostAgg) (hnone : alookup m k = Option.none) (hv : v.connCount = 1) :
    ((aupsert m k v).map fun e => e.2.connCount).sum
      = ((m.map fun e => e.2.connCount).sum) + 1 := by
  rw [sum_connCount_aupsert_none m k v hnone, hv]

/-- One host-aggregation step adds 1 to the total `connCount` exactly when
the connection has a non-nil destination. -/
theorem hostStep_connCount (hm : List (IPAddr × HostAgg)) (pc : String × Connection) :
    ((hostStep hm pc).map fun e => e.2.connCount).sum
      = ((hm.map fun e => e.2.connCount).sum)
        + (if pc.2.dstIP = IPAddr.nil then 0 else 1) := by
  simp only [hostStep]
  by_cases h : pc.2.dstIP = IPAddr.nil
  · simp [h]
  · rw [if_neg h, if_neg h]
    cases hfound : alookup hm (ipKeyOf pc.2.dstIP) with
    | none =>
      exact sum_connCount_aupsert_one hm _ _ hfound (by split <;> rfl)
    | some b =>
      exact sum_connCount_aupsert_inc hm _ _ b hfound (by split <;> rfl)

/-- The host-aggregation fold counts exactly the connections with a
non-nil destination. -/
theorem hostFold_connCount :
    ∀ (pcs : List (String × Connection)) (hm : List (IPAddr × HostAgg)),
      ((pcs.foldl hostStep hm).map fun e => e.2.connCount).sum
        = ((hm.map fun e => e.2.connCount).sum)
          + (pcs.filter fun pc => !decide (pc.2.dstIP = IPAddr.nil)).length := by
  intro pcs
  induction pcs with
  | nil =>
    intro hm
    simp
  | cons pc rest ih =>
    intro hm
    rw [List.foldl_cons, ih, hostStep_connCount, List.filter_cons]
    by_cases h : pc.2.dstIP = IPAddr.nil
    · simp [h]
    · have hcond : (!decide (pc.2.dstIP = IPAddr.nil)) = true := by
        simp [h]
      rw [if_neg h, if_pos hcond, List.length_cons]
      omega

theorem procConns_total : ∀ procs : List (Nat × ProcData),
    (procConns procs).length = pdNumConns procs := by
  intro procs
  induction procs with
  | nil => rfl
  | cons e rest ih =>
    simp only [procConns, List.length_append, List.length_map, ih,
      pdNumConns, List.map_cons, List.sum_cons]

theorem procConns_nn : ∀ procs : List (Nat × ProcData),
    ((procConns procs).filter fun pc => !decide (pc.2.dstIP = IPAddr.nil)).length
      = pdNumConnsNN procs := by
  intro procs
  induction procs with
  | nil => rfl
  | cons e rest ih =>
    simp only [procConns, List.filter_append, List.length_append, ih]
    rw [List.map_filter]
    simp only [List.length_map, pdNumConnsNN, List.map_cons, List.sum_cons]
    rfl

theorem sumRHConns_mergeSort (l : List RemoteHostSummary) :
    sumRHConns (l.mergeSort rhLe) = sumRHConns l := by
  unfold sumRHConns
  exact ((List.mergeSort_perm l rhLe).map fun h => h.connCount).sum_eq

theorem sumRHConns_map_mkRemoteHost (hm : List (IPAddr × HostAgg)) :
    sumRHConns (hm.map mkRemoteHost) = (hm.map fun e => e.2.connCount).sum := by
  induction hm with
  | nil => rfl
  | cons e rest ih =>
    simp only [sumRHConns, List.map_cons, List.sum_cons] at ih ⊢
    rw [ih]
    rfl

set_option maxHeartbeats 1000000 in
/-- C1 amended: for a successful poll whose socket batch has pairwise
distinct socket keys, Σ `ProcessSummary.UpRate` equals the sum of the
per-socket rates over ALL sockets of the batch (listen sockets included),
while Σ connection `up_rate` equals the same sum restricted to NON-LISTEN
sockets, and likewise for down rates; the number of `Connection` entries
is the number of non-listen sockets, and Σ `RemoteHostSummary.ConnCount`
counts only the non-listen sockets with a non-nil destination IP. The
claim's two identities hold exactly when listen sockets carry zero rate
(resp. when no connection has a nil destination), and fail otherwise. -/
theorem aggregation_identity (env : PollEnv) (st : CollectorState)
    (sockets : List MappedSocket) (ifs : List InterfaceStats) (now : ℚ) (snap : Snapshot)
    (hnd : (sockets.map makeSocketKey).Nodup)
    (hpoll : (poll env st (some (sockets, ifs)) now).2 = some snap) :
    sumPSUp snap.processes = rateSumUp (pollCtxOf st now) st.sockets sockets ∧
    sumPSDown snap.processes = rateSumDown (pollCtxOf st now) st.sockets sockets ∧
    sumPSConnUp snap.processes
      = rateSumUp (pollCtxOf st now) st.sockets
          (sockets.filter fun s => !decide (s.state = stateListen)) ∧
    sumPSConnDown snap.processes
      = rateSumDown (pollCtxOf st now) st.sockets
          (sockets.filter fun s => !decide (s.state = stateListen)) ∧
    numPSConns snap.processes
      = (sockets.filter fun s => !decide (s.state = stateListen)).length ∧
    sumRHConns snap.remoteHosts
      = (sockets.filter fun s =>
          !decide (s.state = stateListen) && !decide (s.dstIP = IPAddr.nil)).length := by
  simp only [poll, Option.some.injEq] at hpoll
  subst hpoll
  obtain ⟨h1, h2, h3, h4, h5, h6⟩ := sockFold_pdSums env (pollCtxOf st now) sockets
    ⟨st.sockets, [], st.totalCumUp, st.totalCumDown, st.cumByPID, []⟩ st.sockets
    (fun s _ => rfl) hnd
  dsimp only
  refine ⟨?_, ?_, ?_, ?_, ?_, ?_⟩
  · rw [summFold_upRate, h1]
    simp [sumPSUp, pdSumUp]
  · rw [summFold_downRate, h2]
    simp [sumPSDown, pdSumDown]
  · rw [summFold_connUp, h3]
    simp [sumPSConnUp, pdSumConnUp]
  · rw [summFold_connDown, h4]
    simp [sumPSConnDown, pdSumConnDown]
  · rw [summFold_connLen, h5]
    simp [numPSConns, pdNumConns]
  · rw [sumRHConns_mergeSort, sumRHConns_map_mkRemoteHost, hostFold_connCount,
      procConns_nn, h6]
    simp [pdNumConnsNN]

/-- The non-listen socket with a nil destination used by the C1 scenarios. -/
def sockNil : MappedSocket :=
  ⟨.tcp, .v4 10 0 0 1, 5, .nil, 9, stateEstablished, 0, 0, 0, 42, "p", "p"⟩

/-- The listen socket of the C1 counterexample (cumulative counter `sent`). -/
def mkListen (sent : Nat) : MappedSocket :=
  ⟨.tcp, .v4 10 0 0 1, 80, .nil, 0, stateListen, 0, sent, 0, 42, "p", "p"⟩

def kL : SocketKey := ⟨.tcp, .ip4 10 0 0 1 80, .any 0⟩

def kN : SocketKey := ⟨.tcp, .ip4 10 0 0 1 5, .any 9⟩

theorem makeSocketKey_listenShape (st ino sent recv pid : Nat) (n c : String) :
    makeSocketKey ⟨.tcp, .v4 10 0 0 1, 80, .nil, 0, st, ino, sent, recv, pid, n, c⟩
      = kL := rfl

theorem makeSocketKey_nilShape (st ino sent recv pid : Nat) (n c : String) :
    makeSocketKey ⟨.tcp, .v4 10 0 0 1, 5, .nil, 9, st, ino, sent, recv, pid, n, c⟩
      = kN := rfl

/-- The first-poll `Connection` produced for `sockNil`. -/
def conn0 : Connection :=
  ⟨.tcp, .v4 10 0 0 1, 5, .nil, 9, stateEstablished, 0, 0, 0, "", serviceNameFor 9 5⟩

/-- The process summary of the single-socket first poll on `sockNil`. -/
def ps0 : ProcessSummary :=
  ⟨42, 0, "p", "p", 0, 0, [conn0], [], 1, 0, 0, 0, [], [], [0]⟩

/-- The snapshot of the single-socket first poll on `sockNil`. -/
def sn1 : Snapshot := ⟨0, [ps0], [], [], [], 0, 0, [0]⟩

set_option maxHeartbeats 1000000 in
theorem c1_witness_poll :
    (poll env0 initialState (some ([sockNil], [])) 0).2 = some sn1 := by
  norm_num [poll, pollCtxOf, pollDt, processSocket, socketRates, evictStale,
    buildSummary, alookup, aupsert, updateProc, newProcData, makeSocketKey_nilShape,
    sockNil, initialState, EMA.update, EMA.new, emaAlpha, RingBuffer.push,
    RingBuffer.newN, RingBuffer.samples, safeDelta, kN, stateEstablished,
    stateListen, procConns, procListens, hostStep, sn1, ps0, conn0, env0]

/-- Witness for C1 (amended) on the single-socket first poll. -/
theorem aggregation_identity_witness :
    (([sockNil].map makeSocketKey).Nodup) ∧
    sumPSUp sn1.processes
      = rateSumUp (pollCtxOf initialState 0) initialState.sockets [sockNil] ∧
    numPSConns sn1.processes
      = ([sockNil].filter fun s => !decide (s.state = stateListen)).length :=
  ⟨by simp,
   (aggregation_identity env0 initialState [sockNil] [] 0 sn1 (by simp)
      c1_witness_poll).1,
   (aggregation_identity env0 initialState [sockNil] [] 0 sn1 (by simp)
      c1_witness_poll).2.2.2.2.1⟩

/-- The collector state after the first poll of the C1 counterexample. -/
def stC1 : CollectorState :=
  ⟨[(kL, ⟨0, 0, ⟨3 / 10, 0⟩, ⟨3 / 10, 0⟩, 0, 0⟩),
    (kN, ⟨0, 0, ⟨3 / 10, 0⟩, ⟨3 / 10, 0⟩, 0, 0⟩)], [],
   [(42, ⟨60, [0]⟩)], ⟨60, [0]⟩, some 0, 0, 0, []⟩

set_option maxHeartbeats 1000000 in
theorem c1Poll1 :
    (poll env0 initialState (some ([mkListen 0, sockNil], [])) 0).1 = stC1 := by
  norm_num [poll, pollCtxOf, pollDt, processSocket, socketRates, evictStale,
    buildSummary, alookup, aupsert, updateProc, newProcData,
    makeSocketKey_listenShape, makeSocketKey_nilShape, mkListen, sockNil,
    initialState, stC1, EMA.update, EMA.new, emaAlpha, RingBuffer.push,
    RingBuffer.newN, RingBuffer.samples, safeDelta, kL, kN, stateEstablished,
    stateListen, env0]

set_option maxHeartbeats 1000000 in
theorem c1Poll2_facts :
    ∀ sn, (poll env0 stC1 (some ([mkListen 1000, sockNil], [])) 1).2 = some sn →
      sumPSUp sn.processes = 300 ∧ sumPSConnUp sn.processes = 0 ∧
      numPSConns sn.processes = 1 ∧ sumRHConns sn.remoteHosts = 0 := by
  intro sn h
  simp only [poll, Option.some.injEq] at h
  subst h
  norm_num [pollCtxOf, pollDt, processSocket, socketRates, buildSummary,
    alookup, aupsert, updateProc, newProcData, makeSocketKey_listenShape,
    makeSocketKey_nilShape, mkListen, sockNil, stC1, EMA.update, EMA.new,
    emaAlpha, RingBuffer.push, RingBuffer.newN, RingBuffer.samples, safeDelta,
    kL, kN, stateEstablished, stateListen, env0, procConns, hostStep,
    sumPSUp, sumPSConnUp, numPSConns, sumRHConns]

/-- C1 counterexample: two polls one second apart on a listen socket whose
counters moved (0 → 1000 B sent) plus one established connection with a
nil destination. In the second snapshot the process up-rate total is
300 B/s but the connection up-rate total is 0 (the listen socket's rate is
added to `pd.upRate` yet produces no `Connection`), and Σ
`RemoteHostSummary.ConnCount` is 0 although there is 1 non-listen
connection (nil destinations are skipped by the host aggregation). -/
theorem aggregation_identity_fails :
    ∃ s1 s2,
      (runPolls env0 initialState
        [⟨some ([mkListen 0, sockNil], []), 0⟩,
         ⟨some ([mkListen 1000, sockNil], []), 1⟩]).2 = [s1, s2] ∧
      sumPSUp s2.processes = 300 ∧ sumPSConnUp s2.processes = 0 ∧ (300 : ℚ) ≠ 0 ∧
      numPSConns s2.processes = 1 ∧ sumRHConns s2.remoteHosts = 0 ∧ 1 ≠ 0 := by
  obtain ⟨sA, hA⟩ := poll_emits env0 initialState [mkListen 0, sockNil] [] 0
  obtain ⟨sB, hB⟩ := poll_emits env0 stC1 [mkListen 1000, sockNil] [] 1
  have hfacts := c1Poll2_facts sB hB
  refine ⟨sA, sB, ?_, hfacts.1, hfacts.2.1, by norm_num, hfacts.2.2.1,
    hfacts.2.2.2, by norm_num⟩
  simp only [runPolls]
  rw [c1Poll1, hA, hB]
  rfl

end SSTop
